import Mathlib

/-!
Verification of the torus-portfolio navigation and camera core (src/src/App.jsx).

This development gives a shallow embedding of the navigation state machine,
camera animator, input router and per-frame scene updater of the single-page
3D portfolio application in `src/src/App.jsx`, and proves the specification
claims C1-C10 about it.

Modelling conventions:

* JavaScript numbers are modelled as exact rationals (`ℚ`).  All constants of
  the source (`0.05`, `2.5`, `0.003`, ...) appear as the corresponding exact
  rationals (`1/20`, `5/2`, `3/1000`, ...).
* Transcendental functions (`Math.sin`, `Math.cos`), the Catmull-Rom spline
  lookup `curve.getPointAt` and `THREE.Vector3.normalize` (which needs a square
  root) are not rational-valued; they are taken as parameters, collected in an
  `Env` structure.  Every claim proved here is universally quantified over the
  environment, so it holds in particular for the real trigonometric functions.
  Likewise the raycaster is abstracted: a pointer-up event carries the entity
  the ray hit (`Hit`), and the opacity gate on that hit is evaluated against
  the opacities tracked in the state, exactly as the source reads
  `material.opacity`.
* React semantics: the two `useEffect` hooks whose dependencies are
  `[activeSection, activeLink]` (camera-fly trigger, in the child `Scene3D`)
  and `[cameraPhase, activeSection]` (pending-link consumption, in the parent
  `App`) run after every committed state update whose dependencies changed,
  children first.  `flushEffects` below models this cascade; two rounds are a
  fixed point because the consumption effect changes only `activeLink` /
  `pendingLink` and the fly trigger changes neither dependency list.
  Writes to `useRef` values (`pendingLinkRef`, drag/zoom refs, the animation
  record) do not trigger renders and hence no effect flush — the model updates
  them in place.
* The fields holding only presentation data (label, color, title, subtitle,
  description strings) and the purely visual outputs that no state reads back
  (billboard orientation, sphere scales, screen-space label positions, the
  renderer itself) are omitted; everything the control logic reads is tracked.
-/

/-- A 3D vector with exact rational coordinates (models `THREE.Vector3`). -/
structure Vec3 where
  x : ℚ
  y : ℚ
  z : ℚ
deriving DecidableEq, Repr

def Vec3.zero : Vec3 := ⟨0, 0, 0⟩

/-- Componentwise addition (`Vector3.add`). -/
def vadd (a b : Vec3) : Vec3 := ⟨a.x + b.x, a.y + b.y, a.z + b.z⟩

/-- Scalar multiple (`Vector3.multiplyScalar`). -/
def smul (a : Vec3) (c : ℚ) : Vec3 := ⟨a.x * c, a.y * c, a.z * c⟩

/-- Models `Vector3.lerpVectors(a, b, t)`: componentwise `a + (b - a) * t`. -/
def lerpV (a b : Vec3) (t : ℚ) : Vec3 :=
  ⟨a.x + (b.x - a.x) * t, a.y + (b.y - a.y) * t, a.z + (b.z - a.z) * t⟩

/-- Truncation toward zero, as JavaScript division underlying `%` does. -/
def ratTrunc (q : ℚ) : ℤ := if 0 ≤ q then ⌊q⌋ else -⌊-q⌋

/-- The JavaScript remainder operator `a % b` (sign follows the dividend). -/
def jsMod (a b : ℚ) : ℚ := a - b * (ratTrunc (a / b) : ℤ)

/-- The wrapping `((p % 1) + 1) % 1` used by `getTorusPosition` and by the
per-frame planet progress computation. -/
def wrapProgress (p : ℚ) : ℚ := jsMod (jsMod p 1 + 1) 1

/-- Function `getTorusPosition(progress)` (App.jsx lines 40-50): wraps the progress into
`[0,1)` and evaluates the cached closed Catmull-Rom curve there.  The spline
lookup itself (`_torusCurve.getPointAt`) is the abstracted `curve` argument. -/
def getTorusPosition (curve : ℚ → Vec3) (progress : ℚ) : Vec3 :=
  curve (wrapProgress progress)

/-- Function `easeInOutCubic` (App.jsx lines 237-239). -/
def easeInOutCubic (t : ℚ) : ℚ :=
  if t < 1/2 then 4 * t ^ 3 else 1 - (-2 * t + 2) ^ 3 / 2

/-- The ubiquitous exponential-easing update `cur += (target - cur) * rate`. -/
def damp (cur target rate : ℚ) : ℚ := cur + (target - cur) * rate

/-- Function `subSeed` (App.jsx lines 242-244): seeded pseudo-randomness per sub-sphere. -/
def subSeed (sIdx lIdx : ℕ) : ℕ := sIdx * 7 + lIdx * 13

/-- Function `seededVal` (App.jsx lines 245-247). -/
def seededVal (seed mult : ℕ) : ℚ := ((seed * mult) % 100 : ℕ) / 100

/-- Models `Array.prototype.findIndex`: index of the first match, `-1` if none. -/
def jsFindIndex {α : Type} (p : α → Bool) (l : List α) : ℤ :=
  match l.findIdx? p with
  | some i => (i : ℤ)
  | none => -1

/-- A link entry of the static `SECTIONS` dataset.  The presentation strings
(title, subtitle, description) are never read by the modelled logic and are
omitted. -/
structure LinkData where
  id : String
deriving DecidableEq, Repr

/-- A section entry of the static `SECTIONS` dataset (App.jsx lines 55-206).
`label` and `color` are presentation-only and omitted. -/
structure SectionData where
  id : String
  orbitOffset : ℚ
  orbitSpeed : ℚ
  links : List LinkData
deriving DecidableEq, Repr

/-- The static `SECTIONS` array (ids and orbit parameters from the source). -/
def SECTIONS : List SectionData :=
  [ ⟨"art", 0, 18/10000, [⟨"gallery"⟩, ⟨"instagram"⟩, ⟨"process"⟩]⟩,
    ⟨"dev", 2/10, 12/10000, [⟨"projects"⟩, ⟨"github"⟩, ⟨"resume"⟩]⟩,
    ⟨"yoga", 4/10, 22/10000, [⟨"classes"⟩, ⟨"philosophy"⟩, ⟨"training"⟩]⟩,
    ⟨"about", 6/10, 14/10000, [⟨"story"⟩, ⟨"values"⟩, ⟨"press"⟩]⟩,
    ⟨"contact", 8/10, 2/1000, [⟨"email"⟩, ⟨"booking"⟩, ⟨"social"⟩]⟩ ]

/-- Default section used with `List.getD`; the source never indexes out of
range (all indices come from `findIndex` guarded by `>= 0`). -/
def dsec : SectionData := ⟨"", 0, 0, []⟩

/-- Camera-phase names reported through `onCameraProgress`, plus the animation
phases stored in `cameraAnimRef.phase`. -/
inductive Phase where
  | idle
  | home
  | flyToParent
  | flyToSub
  | flyHome
  | parkedAtParent
  | parkedAtSub
deriving DecidableEq, Repr

/-- The mutable camera-animation record `cameraAnimRef.current`
(App.jsx lines 283-295). -/
structure CameraAnim where
  active : Bool
  phase : Phase
  startPos : Vec3
  endPos : Vec3
  startLookAt : Vec3
  endLookAt : Vec3
  currentLookAt : Vec3
  progress : ℚ
  duration : ℚ
  targetSectionIndex : ℤ
  targetLinkIndex : ℤ
deriving DecidableEq, Repr

/-- Initial camera-animation record (App.jsx lines 283-295). -/
def initAnim : CameraAnim :=
  { active := false, phase := Phase.idle,
    startPos := Vec3.zero, endPos := Vec3.zero,
    startLookAt := Vec3.zero, endLookAt := Vec3.zero,
    currentLookAt := Vec3.zero,
    progress := 0, duration := 5/2,
    targetSectionIndex := -1, targetLinkIndex := -1 }

/-- The non-rational primitives of the runtime, abstracted: `Math.sin`,
`Math.cos`, the spline lookup `_torusCurve.getPointAt`,
`THREE.Vector3.normalize` (requires a square root), and the live moon
position (its inclined-circle orbit multiplies seeded values by `Math.PI`,
so its trigonometric arguments are irrational; the whole position, a pure
function of time and the (section, link) identity as far as the control
logic is concerned, is abstracted as `subPosAt time sIdx lIdx`). -/
structure Env where
  sinF : ℚ → ℚ
  cosF : ℚ → ℚ
  curveAt : ℚ → Vec3
  vnormalize : Vec3 → Vec3
  subPosAt : ℚ → ℕ → ℕ → Vec3

/-- The entity resolved by the raycaster walk-up in `handleClick`
(App.jsx lines 517-545): the nearest ancestor tagged planet or moon. -/
inductive Hit where
  | parent (idx : ℕ)
  | sub (sIdx lIdx : ℕ)
deriving DecidableEq, Repr

/-- The complete mutable state of the application: React state of `App`,
the refs of `Scene3D`, and two ghost observers (`flightLog` records every
flight the trigger effect starts; `clicksProcessed` counts pointer releases
that pass the drag/animation gate of `handleClick`). -/
structure Sys where
  -- App React state
  activeSection : Option String
  activeLink : Option String
  pendingLink : Option String
  cameraPhase : Phase
  cameraProgress : ℚ
  showConstellation : Bool
  -- input-router refs
  isDragging : Bool
  hasDragged : Bool
  lastMouse : ℚ × ℚ
  mouseDownPos : ℚ × ℚ
  rotation : ℚ × ℚ        -- (x, y) = (elevation, azimuth)
  targetRotation : ℚ × ℚ
  autoRotate : ℚ
  zoom : ℚ
  targetZoom : ℚ
  pinchStart : Option ℚ
  -- camera animator
  anim : CameraAnim
  camPos : Vec3
  -- scene graph state read back by the logic
  spherePos : List Vec3
  subPos : List (List Vec3)
  parentOp : List ℚ
  parentRingOp : List ℚ
  subOp : List (List ℚ)
  subRingOp : List (List ℚ)
  lineOp : ℚ
  constOp : List ℚ
  -- fly-trigger effect refs
  prevSection : Option String
  prevLink : Option String
  -- ghost observers
  flightLog : List Phase
  clicksProcessed : ℕ
deriving DecidableEq, Repr

/-- The state right after mount: initial React state, initial refs
(App.jsx lines 270-295, 1420-1426), meshes at the origin with their initial
material opacities, and the fly-trigger effect having done its skipped first
run (`mountedRef` set, `prev` refs holding the initial null state). -/
def initSys : Sys :=
  { activeSection := none, activeLink := none, pendingLink := none,
    cameraPhase := Phase.idle, cameraProgress := 0, showConstellation := false,
    isDragging := false, hasDragged := false,
    lastMouse := (0, 0), mouseDownPos := (0, 0),
    rotation := (3/10, 0), targetRotation := (3/10, 0), autoRotate := 0,
    zoom := 9/2, targetZoom := 9/2, pinchStart := none,
    anim := initAnim, camPos := ⟨0, 2, 9/2⟩,
    spherePos := List.replicate 5 Vec3.zero,
    subPos := SECTIONS.map (fun sec => sec.links.map (fun _ => Vec3.zero)),
    parentOp := List.replicate 5 1,
    parentRingOp := List.replicate 5 (1/4),
    subOp := SECTIONS.map (fun sec => sec.links.map (fun _ => 4/5)),
    subRingOp := SECTIONS.map (fun sec => sec.links.map (fun _ => 1/5)),
    lineOp := 1, constOp := List.replicate 5 0,
    prevSection := none, prevLink := none,
    flightLog := [], clicksProcessed := 0 }

/-- A concrete environment (used only to instantiate universally quantified
theorems at witnesses; the control logic never depends on these values). -/
def env0 : Env :=
  { sinF := fun _ => 0, cosF := fun _ => 0,
    curveAt := fun _ => Vec3.zero, vnormalize := fun v => v,
    subPosAt := fun _ _ _ => Vec3.zero }

/-- Free-orbit camera position from spherical coordinates
(App.jsx lines 688-694 and 798-806). -/
def sphericalPos (env : Env) (rot : ℚ × ℚ) (r : ℚ) : Vec3 :=
  ⟨r * env.cosF rot.1 * env.sinF rot.2,
   r * env.sinF rot.1,
   r * env.cosF rot.1 * env.cosF rot.2⟩

/-- The camera-fly trigger effect (App.jsx lines 640-711), run whenever its
dependencies `[activeSection, activeLink]` changed.  Each branch records the
camera pose at the instant it fires as the new flight's start
(`anim.startPos = camera.position.clone()`); the `anim.currentLookAt ? ... :`
ternaries always take the first branch because `currentLookAt` is initialized
to a (truthy) `Vector3` and never nulled, so `startLookAt` is always the
previous `currentLookAt`.  The `prev` refs are updated unconditionally at the
end (lines 709-710).  A started flight is also recorded in the ghost
`flightLog`. -/
def flyTrigger (env : Env) (s : Sys) : Sys :=
  let s1 :=
    match s.activeSection, s.activeLink with
    | some sec, some lnk =>
        -- Level 2: fly to sub-sphere (lines 653-671)
        let sIdx := jsFindIndex (fun (x : SectionData) => x.id == sec) SECTIONS
        let lIdx := if 0 ≤ sIdx then
            jsFindIndex (fun (l : LinkData) => l.id == lnk) (SECTIONS.getD sIdx.toNat dsec).links
          else -1
        if 0 ≤ sIdx ∧ 0 ≤ lIdx then
          { s with
            anim := { s.anim with
              active := true, phase := Phase.flyToSub,
              startPos := s.camPos, startLookAt := s.anim.currentLookAt,
              targetSectionIndex := sIdx, targetLinkIndex := lIdx,
              progress := 0, duration := 9/5 },
            flightLog := s.flightLog ++ [Phase.flyToSub] }
        else s
    | some sec, none =>
        -- Level 1: fly to parent (lines 672-684); note: no index guard here
        let idx := jsFindIndex (fun (x : SectionData) => x.id == sec) SECTIONS
        { s with
          anim := { s.anim with
            active := true, phase := Phase.flyToParent,
            startPos := s.camPos, startLookAt := s.anim.currentLookAt,
            targetSectionIndex := idx, targetLinkIndex := -1,
            progress := 0,
            duration := if s.prevLink.isSome then 3/2 else 5/2 },
          flightLog := s.flightLog ++ [Phase.flyToParent] }
    | none, none =>
        -- Level 0: fly home, only if a section was active before (685-707)
        if s.prevSection.isSome then
          { s with
            anim := { s.anim with
              active := true, phase := Phase.flyHome,
              startPos := s.camPos,
              endPos := sphericalPos env s.rotation s.zoom,
              startLookAt := s.anim.currentLookAt, endLookAt := Vec3.zero,
              targetSectionIndex := -1, targetLinkIndex := -1,
              progress := 0, duration := 2 },
            flightLog := s.flightLog ++ [Phase.flyHome] }
        else s
    | none, some _ => s
  { s1 with prevSection := s.activeSection, prevLink := s.activeLink }

/-- The pending-link consumption effect (App.jsx lines 1460-1470), run
whenever its dependencies `[cameraPhase, activeSection]` changed: when a link
is queued, a section is active and the stored camera phase is
`parkedAtParent`, the queue is cleared and the link promoted. -/
def consumePending (s : Sys) : Sys :=
  match s.pendingLink with
  | some l =>
      if s.activeSection.isSome ∧ s.cameraPhase = Phase.parkedAtParent then
        { s with pendingLink := none, activeLink := some l }
      else s
  | none => s

/-- One round of React's post-commit effect pass: the child effect
(fly trigger) runs first, then the parent effect (pending consumption), each
only if its dependency list changed between the previous committed state
`prev` and the current one `cur`. -/
def flushOnce (env : Env) (prev cur : Sys) : Sys :=
  let s1 := if (cur.activeSection, cur.activeLink) ≠ (prev.activeSection, prev.activeLink)
    then flyTrigger env cur else cur
  if (cur.cameraPhase, cur.activeSection) ≠ (prev.cameraPhase, prev.activeSection)
    then consumePending s1 else s1

/-- The full effect cascade after a committed state update.  Two rounds
reach a fixed point: the consumption effect can change only
`activeLink`/`pendingLink` (re-running the fly trigger once), never
`cameraPhase`/`activeSection`, and the fly trigger changes no dependency. -/
def flushEffects (env : Env) (prev cur : Sys) : Sys :=
  let s1 := flushOnce env prev cur
  flushOnce env cur s1

/-- Handler `handleClickSection` (App.jsx lines 1432-1440): ignore a re-click of the
already-active section at section level, otherwise clear the pending queue,
drop any active link, activate the section, and let the effects run. -/
def handleClickSection (env : Env) (s : Sys) (id : String) : Sys :=
  if s.activeSection = some id ∧ s.activeLink = none then s
  else flushEffects env s
    { s with pendingLink := none, activeLink := none, activeSection := some id }

/-- Handler `handleBack` (App.jsx lines 1442-1447). -/
def handleBack (env : Env) (s : Sys) : Sys :=
  flushEffects env s
    { s with pendingLink := none, activeLink := none, activeSection := none }

/-- Handler `handleBackToSection` (App.jsx lines 1449-1452). -/
def handleBackToSection (env : Env) (s : Sys) : Sys :=
  flushEffects env s { s with pendingLink := none, activeLink := none }

/-- Handler `handleClickSubSphere` (App.jsx lines 1472-1488).  The middle branch only
writes the `pendingLinkRef` ref, so no render and no effect flush happens
there. -/
def handleClickSubSphere (env : Env) (s : Sys) (sectionId linkId : String) : Sys :=
  if s.activeSection ≠ some sectionId then
    flushEffects env s
      { s with pendingLink := some linkId, activeLink := none,
               activeSection := some sectionId }
  else if s.cameraPhase = Phase.flyToParent then
    { s with pendingLink := some linkId }
  else
    flushEffects env s { s with activeLink := some linkId }

/-- Handler `handleClick` (App.jsx lines 517-545): gate on drag / active animation,
then resolve the raycast hit.  A planet is actionable only with no active
section; a moon only when its section is active, no link is active, and its
tracked material opacity exceeds `0.3`.  The ghost counter `clicksProcessed`
records that the release was processed as a click (passed the gate). -/
def handleClickAt (env : Env) (s : Sys) (hit : Option Hit) : Sys :=
  if s.hasDragged ∨ s.anim.active then s
  else
    let s := { s with clicksProcessed := s.clicksProcessed + 1 }
    match hit with
    | none => s
    | some (Hit.parent i) =>
        if s.activeSection = none then
          match SECTIONS.get? i with
          | some sec => handleClickSection env s sec.id
          | none => s
        else s
    | some (Hit.sub si li) =>
        if s.activeSection.isSome ∧ s.activeLink = none then
          match SECTIONS.get? si with
          | some sec =>
              match sec.links.get? li with
              | some l =>
                  if (3 : ℚ)/10 < (s.subOp.getD si []).getD li 0 then
                    handleClickSubSphere env s sec.id l.id
                  else s
              | none => s
          | none => s
        else s

/-- Listener `onMD` (App.jsx lines 465-471): mouse down, ignored during a flight. -/
def onMD (s : Sys) (x y : ℚ) : Sys :=
  if s.anim.active then s
  else { s with isDragging := true, hasDragged := false,
                lastMouse := (x, y), mouseDownPos := (x, y) }

/-- Listener `onMM` while pressed (App.jsx lines 472-515): mark the gesture a drag once
either axis moves more than 5px from the down origin; accumulate rotation
targets only at home.  The unpressed branch only sets the hover cursor, which
no logic reads back. -/
def onMM (s : Sys) (x y : ℚ) : Sys :=
  if s.isDragging = false then s
  else
    let dx := x - s.lastMouse.1
    let dy := y - s.lastMouse.2
    let dragged := if 5 < |x - s.mouseDownPos.1| ∨ 5 < |y - s.mouseDownPos.2|
      then true else s.hasDragged
    let tr := if s.activeSection = none
      then (s.targetRotation.1 + dy * (1/200), s.targetRotation.2 + dx * (1/200))
      else s.targetRotation
    { s with hasDragged := dragged, targetRotation := tr, lastMouse := (x, y) }

/-- Listener `onMU` (App.jsx lines 547-551). -/
def onMU (env : Env) (s : Sys) (hit : Option Hit) : Sys :=
  let s1 := if s.hasDragged = false then handleClickAt env s hit else s
  { s1 with isDragging := false, hasDragged := false }

/-- Listener `onWH` (App.jsx lines 552-556): wheel zoom, a home-only affordance,
clamped to `[2, 8]`. -/
def onWH (s : Sys) (deltaY : ℚ) : Sys :=
  if s.anim.active ∨ s.activeSection.isSome then s
  else { s with targetZoom := max 2 (min 8 (s.targetZoom + deltaY * (3/1000))) }

/-- Listener `onTS` with one touch (App.jsx lines 557-569). -/
def onTS1 (s : Sys) (x y : ℚ) : Sys :=
  if s.anim.active then s
  else { s with isDragging := true, hasDragged := false,
                lastMouse := (x, y), mouseDownPos := (x, y) }

/-- Listener `onTS` with two touches (App.jsx lines 570-575): record the pinch
baseline distance (the `Math.hypot` of the two concrete touch points is
carried by the event). -/
def onTS2 (s : Sys) (d : ℚ) : Sys :=
  if s.anim.active then s else { s with pinchStart := some d }

/-- Listener `onTM` with one touch (App.jsx lines 577-594): 8px drag threshold. -/
def onTM1 (s : Sys) (x y : ℚ) : Sys :=
  if s.isDragging = false then s
  else
    let dragged := if 8 < |x - s.mouseDownPos.1| ∨ 8 < |y - s.mouseDownPos.2|
      then true else s.hasDragged
    let dx := x - s.lastMouse.1
    let dy := y - s.lastMouse.2
    let tr := if s.activeSection = none
      then (s.targetRotation.1 + dy * (1/200), s.targetRotation.2 + dx * (1/200))
      else s.targetRotation
    { s with hasDragged := dragged, targetRotation := tr, lastMouse := (x, y) }

/-- Listener `onTM` with two touches (App.jsx lines 595-607): pinch zoom, gated on a
recorded baseline and on no active section (note: not on `anim.active`),
clamped to `[2, 8]`. -/
def onTM2 (s : Sys) (d : ℚ) : Sys :=
  match s.pinchStart with
  | some p =>
      if s.activeSection = none then
        { s with targetZoom := max 2 (min 8 (s.targetZoom + (p - d) * (1/100))),
                 pinchStart := some d }
      else s
  | none => s

/-- Listener `onTE` (App.jsx lines 609-615). -/
def onTE (env : Env) (s : Sys) (hit : Option Hit) : Sys :=
  let s1 := if s.hasDragged = false then handleClickAt env s hit else s
  { s1 with isDragging := false, hasDragged := false, pinchStart := none }

/-- Auto-rotate portion of `animate` (App.jsx lines 725-731). -/
def autoRotateStep (s : Sys) (delta : ℚ) : Sys :=
  if s.isDragging = false ∧ s.anim.active = false ∧ s.activeSection = none then
    { s with autoRotate := s.autoRotate + delta * (3/20),
             targetRotation := (s.targetRotation.1, s.autoRotate + delta * (3/20)) }
  else if s.isDragging then { s with autoRotate := s.targetRotation.2 }
  else s

/-- Rotation/zoom exponential damping (App.jsx lines 732-736). -/
def dampStep (s : Sys) : Sys :=
  { s with rotation := (damp s.rotation.1 s.targetRotation.1 (1/20),
                        damp s.rotation.2 s.targetRotation.2 (1/20)),
           zoom := damp s.zoom s.targetZoom (1/20) }

/-- The camera portion of `animate` (App.jsx lines 738-848): advance and
possibly finish an active flight (the endpoint is recomputed from the live
target position for `flyToParent`/`flyToSub`, from the stored
`endPos`/`endLookAt` otherwise), or hold one of the three rest behaviors.
Returns the updated state together with the `(phase, progress)` pair passed
to `onCameraProgress`.  Note that the parked branches move the camera only
when the id lookup succeeds but report their parked phase unconditionally,
and that they do not update `anim.currentLookAt`. -/
def cameraStep (env : Env) (s : Sys) (time delta : ℚ) : Sys × Phase × ℚ :=
  if s.anim.active then
    let p0 := s.anim.progress + delta / s.anim.duration
    let prog := if 1 ≤ p0 then 1 else p0
    let act := if 1 ≤ p0 then false else true
    let t := easeInOutCubic prog
    let tgt : Vec3 × Vec3 :=
      if s.anim.phase = Phase.flyToParent ∧ 0 ≤ s.anim.targetSectionIndex then
        let pos := s.spherePos.getD s.anim.targetSectionIndex.toNat Vec3.zero
        (vadd (vadd pos (smul (env.vnormalize pos) (3/5))) ⟨0, 3/20, 0⟩, pos)
      else if s.anim.phase = Phase.flyToSub ∧ 0 ≤ s.anim.targetSectionIndex ∧
          0 ≤ s.anim.targetLinkIndex then
        let sp := (s.subPos.getD s.anim.targetSectionIndex.toNat []).getD
          s.anim.targetLinkIndex.toNat Vec3.zero
        (vadd (vadd sp (smul (env.vnormalize sp) (3/20))) ⟨0, 1/25, 0⟩, sp)
      else (s.anim.endPos, s.anim.endLookAt)
    ({ s with
        camPos := lerpV s.anim.startPos tgt.1 t,
        anim := { s.anim with
          progress := prog, active := act,
          currentLookAt := lerpV s.anim.startLookAt tgt.2 t } },
     s.anim.phase, prog)
  else if s.activeSection = none then
    ({ s with camPos := sphericalPos env s.rotation s.zoom }, Phase.home, 0)
  else if s.activeLink = none then
    let idx := jsFindIndex (fun (x : SectionData) => x.id == s.activeSection.getD "") SECTIONS
    let s' := if 0 ≤ idx then
        let pos := s.spherePos.getD idx.toNat Vec3.zero
        let breathe := env.sinF (time * (2/5)) * (1/100)
        let target := vadd (vadd pos (smul (env.vnormalize pos) (3/5)))
          ⟨0, 3/20 + breathe, 0⟩
        { s with camPos := lerpV s.camPos target (3/100) }
      else s
    (s', Phase.parkedAtParent, 0)
  else
    let sIdx := jsFindIndex (fun (x : SectionData) => x.id == s.activeSection.getD "") SECTIONS
    let lIdx := if 0 ≤ sIdx then
        jsFindIndex (fun (l : LinkData) => l.id == s.activeLink.getD "")
          (SECTIONS.getD sIdx.toNat dsec).links
      else -1
    let s' := if 0 ≤ sIdx ∧ 0 ≤ lIdx then
        let sp := (s.subPos.getD sIdx.toNat []).getD lIdx.toNat Vec3.zero
        let breathe := env.sinF (time * (3/10)) * (1/200)
        let target := vadd (vadd sp (smul (env.vnormalize sp) (3/20)))
          ⟨0, 1/25 + breathe, 0⟩
        { s with camPos := lerpV s.camPos target (3/100) }
      else s
    (s', Phase.parkedAtSub, 0)

/-- The scene-updating portion of `animate` (App.jsx lines 850-982): planet
positions sampled from the torus curve, opacity easing for planets, moons,
the torus line and the constellation lines.  Spheres' pulsing scales and
billboard orientations are purely visual and omitted. -/
def sceneUpdate (env : Env) (s : Sys) (time : ℚ) : Sys :=
  let parentTarget : SectionData → ℚ × ℚ := fun sec =>
    match s.activeSection with
    | some act =>
        if sec.id = act then
          ((if s.activeLink.isSome then 3/25 else 1/4),
           (if s.activeLink.isSome then 1/5 else 1/2))
        else (3/50, 3/100)
    | none => (1, 1/4)
  let subTarget : ℕ → ℕ → ℚ × ℚ := fun si li =>
    let sec := SECTIONS.getD si dsec
    let isActiveSection := s.activeSection = some sec.id
    let isActiveLink := isActiveSection ∧
      s.activeLink = some ((sec.links.getD li ⟨""⟩).id)
    ((if s.activeLink.isSome ∧ isActiveSection then (if isActiveLink then 1 else 3/20)
      else if isActiveSection then 19/20 else 4/5),
     (if isActiveLink then 1/2 else if isActiveSection then 7/20 else 1/5))
  { s with
    spherePos := SECTIONS.map (fun sec =>
      getTorusPosition env.curveAt
        (wrapProgress (time * sec.orbitSpeed + sec.orbitOffset))),
    parentOp := List.zipWith (fun sec op => damp op (parentTarget sec).1 (1/20))
      SECTIONS s.parentOp,
    parentRingOp := List.zipWith (fun sec op => damp op (parentTarget sec).2 (1/20))
      SECTIONS s.parentRingOp,
    subPos := (List.range SECTIONS.length).map (fun si =>
      (List.range (SECTIONS.getD si dsec).links.length).map
        (fun li => env.subPosAt time si li)),
    subOp := (List.range SECTIONS.length).map (fun si =>
      List.zipWith (fun li op => damp op (subTarget si li).1 (3/50))
        (List.range (SECTIONS.getD si dsec).links.length) (s.subOp.getD si [])),
    subRingOp := (List.range SECTIONS.length).map (fun si =>
      List.zipWith (fun li op => damp op (subTarget si li).2 (3/50))
        (List.range (SECTIONS.getD si dsec).links.length) (s.subRingOp.getD si [])),
    lineOp := damp s.lineOp
      (if s.activeLink.isSome then 1/25 else if s.activeSection.isSome then 1/10 else 1)
      (1/25),
    constOp := s.constOp.map (fun op => damp op
      (if s.showConstellation ∧ s.activeSection = none then 7/20 else 0) (2/25)) }

/-- One animation frame (the `animate` callback, App.jsx lines 714-1014),
followed by React processing the `setCameraPhase`/`setCameraProgress` updates
from `onCameraProgress` and flushing the dependent effects. -/
def frame (env : Env) (s : Sys) (time delta : ℚ) : Sys :=
  let s2 := dampStep (autoRotateStep s delta)
  let cr := cameraStep env s2 time delta
  let s3 := sceneUpdate env cr.1 time
  flushEffects env s { s3 with cameraPhase := cr.2.1, cameraProgress := cr.2.2 }

/-- External events: the inbound commands of the presentation layer (nav bar,
labels, panel), raw pointer/touch input on the canvas, and animation frames.
Pointer-up/touch-end events carry the raycast resolution at the release
point. -/
inductive Event where
  | clickSection (id : String)
  | clickSubSphere (sectionId linkId : String)
  | back
  | backToSection
  | toggleConstellation
  | frameTick (time delta : ℚ)
  | mouseDown (x y : ℚ)
  | mouseMove (x y : ℚ)
  | mouseUp (hit : Option Hit)
  | wheel (deltaY : ℚ)
  | touchStart1 (x y : ℚ)
  | touchStart2 (d : ℚ)
  | touchMove1 (x y : ℚ)
  | touchMove2 (d : ℚ)
  | touchEnd (hit : Option Hit)
deriving DecidableEq, Repr

/-- The global small-step transition: dispatch one event. -/
def step (env : Env) (s : Sys) : Event → Sys
  | Event.clickSection id => handleClickSection env s id
  | Event.clickSubSphere sec lnk => handleClickSubSphere env s sec lnk
  | Event.back => handleBack env s
  | Event.backToSection => handleBackToSection env s
  | Event.toggleConstellation => { s with showConstellation := !s.showConstellation }
  | Event.frameTick t d => frame env s t d
  | Event.mouseDown x y => onMD s x y
  | Event.mouseMove x y => onMM s x y
  | Event.mouseUp hit => onMU env s hit
  | Event.wheel dy => onWH s dy
  | Event.touchStart1 x y => onTS1 s x y
  | Event.touchStart2 d => onTS2 s d
  | Event.touchMove1 x y => onTM1 s x y
  | Event.touchMove2 d => onTM2 s d
  | Event.touchEnd hit => onTE env s hit

/-- Run a list of events. -/
def run (env : Env) (s : Sys) (es : List Event) : Sys :=
  es.foldl (step env) s

/-- Moon-click events are well-formed when they carry a matched
(sectionId, linkId) pair, as every call site in the source does (the canvas
raycast derives both from the hit mesh's `userData`, and the nav dropdown,
labels and panel pass `section.id` with one of `section.links[i].id`). -/
def wfEvent : Event → Prop
  | Event.clickSubSphere sec lnk =>
      ∃ x ∈ SECTIONS, x.id = sec ∧ lnk ∈ x.links.map LinkData.id
  | _ => True

/-- The owner invariant: whenever a link is queued pending, the active
section is the section owning that link. -/
def pendingOwner (s : Sys) : Prop :=
  ∀ l, s.pendingLink = some l →
    ∃ x ∈ SECTIONS, s.activeSection = some x.id ∧ l ∈ x.links.map LinkData.id

/-- The zoom-clamp invariant of claim C8. -/
def zoomInv (s : Sys) : Prop := 2 ≤ s.targetZoom ∧ s.targetZoom ≤ 8

/-! ## Basic lemmas about the effect layer -/

lemma flyTrigger_app (env : Env) (s : Sys) :
    (flyTrigger env s).activeSection = s.activeSection ∧
    (flyTrigger env s).activeLink = s.activeLink ∧
    (flyTrigger env s).pendingLink = s.pendingLink ∧
    (flyTrigger env s).cameraPhase = s.cameraPhase ∧
    (flyTrigger env s).camPos = s.camPos ∧
    (flyTrigger env s).targetZoom = s.targetZoom ∧
    (flyTrigger env s).pinchStart = s.pinchStart ∧
    (flyTrigger env s).clicksProcessed = s.clicksProcessed := by
  unfold flyTrigger
  cases hs : s.activeSection <;> cases hl : s.activeLink <;>
    simp [hs, hl] <;> split_ifs <;> simp [hs, hl]

lemma consumePending_app (s : Sys) :
    (consumePending s).activeSection = s.activeSection ∧
    (consumePending s).cameraPhase = s.cameraPhase ∧
    (consumePending s).camPos = s.camPos ∧
    (consumePending s).anim = s.anim ∧
    (consumePending s).flightLog = s.flightLog ∧
    (consumePending s).targetZoom = s.targetZoom ∧
    (consumePending s).pinchStart = s.pinchStart ∧
    (consumePending s).clicksProcessed = s.clicksProcessed := by
  unfold consumePending
  cases hp : s.pendingLink
  · simp [hp]
  · simp only [hp]; split_ifs <;> simp

/-- Characterization of the consumption effect: it either does nothing, or —
precisely when a link is queued, a section is active and the stored camera
phase is `parkedAtParent` — clears the queue and promotes the queued link. -/
lemma consumePending_cases (s : Sys) :
    consumePending s = s ∨
    ∃ l, s.pendingLink = some l ∧ s.cameraPhase = Phase.parkedAtParent ∧
      s.activeSection.isSome = true ∧
      consumePending s = { s with pendingLink := none, activeLink := some l } := by
  unfold consumePending
  cases hp : s.pendingLink with
  | none => exact Or.inl rfl
  | some l =>
      by_cases h : s.activeSection.isSome = true ∧ s.cameraPhase = Phase.parkedAtParent
      · exact Or.inr ⟨l, rfl, h.2, h.1, by simp [h]⟩
      · exact Or.inl (by simp [h])

lemma consumePending_of_pending_none {s : Sys} (h : s.pendingLink = none) :
    consumePending s = s := by
  unfold consumePending; simp [h]

lemma consumePending_of_phase_ne {s : Sys} (h : s.cameraPhase ≠ Phase.parkedAtParent) :
    consumePending s = s := by
  unfold consumePending
  cases hp : s.pendingLink <;> simp [h]

lemma consumePending_pendingLink_none (s : Sys) :
    (consumePending s).pendingLink = s.pendingLink ∨ (consumePending s).pendingLink = none := by
  rcases consumePending_cases s with h | ⟨l, _, _, _, h⟩
  · exact Or.inl (by rw [h])
  · exact Or.inr (by rw [h])

lemma flushOnce_app (env : Env) (p c : Sys) :
    (flushOnce env p c).activeSection = c.activeSection ∧
    (flushOnce env p c).cameraPhase = c.cameraPhase ∧
    (flushOnce env p c).targetZoom = c.targetZoom ∧
    (flushOnce env p c).pinchStart = c.pinchStart ∧
    (flushOnce env p c).clicksProcessed = c.clicksProcessed := by
  unfold flushOnce
  split_ifs <;>
    simp [flyTrigger_app, consumePending_app,
      (consumePending_app (flyTrigger env c)).1, (flyTrigger_app env c).1]

lemma flushEffects_app (env : Env) (p c : Sys) :
    (flushEffects env p c).activeSection = c.activeSection ∧
    (flushEffects env p c).cameraPhase = c.cameraPhase ∧
    (flushEffects env p c).targetZoom = c.targetZoom ∧
    (flushEffects env p c).pinchStart = c.pinchStart ∧
    (flushEffects env p c).clicksProcessed = c.clicksProcessed := by
  unfold flushEffects
  constructor
  · rw [(flushOnce_app env c (flushOnce env p c)).1, (flushOnce_app env p c).1]
  constructor
  · rw [(flushOnce_app env c (flushOnce env p c)).2.1, (flushOnce_app env p c).2.1]
  constructor
  · rw [(flushOnce_app env c (flushOnce env p c)).2.2.1, (flushOnce_app env p c).2.2.1]
  constructor
  · rw [(flushOnce_app env c (flushOnce env p c)).2.2.2.1, (flushOnce_app env p c).2.2.2.1]
  · rw [(flushOnce_app env c (flushOnce env p c)).2.2.2.2, (flushOnce_app env p c).2.2.2.2]

/-- If the committed state's pending queue is empty, the effect cascade can
only run the fly trigger, so the navigation fields are unchanged. -/
lemma flushEffects_pending_none {env : Env} {p c : Sys} (h : c.pendingLink = none) :
    (flushEffects env p c).activeSection = c.activeSection ∧
    (flushEffects env p c).activeLink = c.activeLink ∧
    (flushEffects env p c).pendingLink = none := by
  unfold flushEffects flushOnce
  have hf := flyTrigger_app env c
  split_ifs <;>
    simp_all [consumePending_of_pending_none, hf.1, hf.2.1, hf.2.2.1,
      (flyTrigger_app env (flyTrigger env c)).1]

/-- If neither `cameraPhase` nor `activeSection` changed in the commit, the
consumption effect does not run, so the navigation fields are those of the
committed state. -/
lemma flushEffects_phase_sec_eq {env : Env} {p c : Sys}
    (h1 : c.cameraPhase = p.cameraPhase) (h2 : c.activeSection = p.activeSection) :
    (flushEffects env p c).activeSection = c.activeSection ∧
    (flushEffects env p c).activeLink = c.activeLink ∧
    (flushEffects env p c).pendingLink = c.pendingLink := by
  unfold flushEffects flushOnce
  have hf := flyTrigger_app env c
  split_ifs <;>
    simp_all [hf.1, hf.2.1, hf.2.2.1, hf.2.2.2.1,
      (flyTrigger_app env (flyTrigger env c)).1]

/-! ## Fly-trigger branch lemmas -/

/-- The parent-flight branch of the trigger effect: with a section active and
no link active it always starts a `flyToParent` flight from the current
camera pose, with the duration picked by whether the previous state had an
active link. -/
lemma flyTrigger_parent {env : Env} {s : Sys} {sec : String}
    (h1 : s.activeSection = some sec) (h2 : s.activeLink = none) :
    (flyTrigger env s).anim.active = true ∧
    (flyTrigger env s).anim.phase = Phase.flyToParent ∧
    (flyTrigger env s).anim.startPos = s.camPos ∧
    (flyTrigger env s).anim.startLookAt = s.anim.currentLookAt ∧
    (flyTrigger env s).anim.progress = 0 ∧
    (flyTrigger env s).anim.duration = (if s.prevLink.isSome then 3/2 else 5/2) ∧
    (flyTrigger env s).anim.targetSectionIndex =
      jsFindIndex (fun (x : SectionData) => x.id == sec) SECTIONS ∧
    (flyTrigger env s).flightLog = s.flightLog ++ [Phase.flyToParent] := by
  unfold flyTrigger
  simp [h1, h2]

/-- The sub-flight branch with valid indices: a `flyToSub` flight of duration
`1.8` from the current camera pose. -/
lemma flyTrigger_sub {env : Env} {s : Sys} {sec lnk : String}
    (h1 : s.activeSection = some sec) (h2 : s.activeLink = some lnk)
    (hsi : 0 ≤ jsFindIndex (fun (x : SectionData) => x.id == sec) SECTIONS)
    (hli : 0 ≤ jsFindIndex (fun (l : LinkData) => l.id == lnk)
      (SECTIONS.getD (jsFindIndex (fun (x : SectionData) => x.id == sec) SECTIONS).toNat dsec).links) :
    (flyTrigger env s).anim.active = true ∧
    (flyTrigger env s).anim.phase = Phase.flyToSub ∧
    (flyTrigger env s).anim.startPos = s.camPos ∧
    (flyTrigger env s).anim.startLookAt = s.anim.currentLookAt ∧
    (flyTrigger env s).anim.progress = 0 ∧
    (flyTrigger env s).anim.duration = 9/5 ∧
    (flyTrigger env s).flightLog = s.flightLog ++ [Phase.flyToSub] := by
  unfold flyTrigger
  simp only [List.getD, List.get?_eq_getElem?] at hli
  simp [h1, h2, hsi, hli]

/-- The sub-flight branch with an unknown link id: the index guard fails and
no flight is started (the animation record and flight log are untouched). -/
lemma flyTrigger_sub_invalid {env : Env} {s : Sys} {sec lnk : String}
    (h1 : s.activeSection = some sec) (h2 : s.activeLink = some lnk)
    (hbad : ¬ (0 ≤ jsFindIndex (fun (x : SectionData) => x.id == sec) SECTIONS ∧
      0 ≤ jsFindIndex (fun (l : LinkData) => l.id == lnk)
        (SECTIONS.getD (jsFindIndex (fun (x : SectionData) => x.id == sec) SECTIONS).toNat dsec).links)) :
    (flyTrigger env s).anim = s.anim ∧
    (flyTrigger env s).flightLog = s.flightLog := by
  unfold flyTrigger
  by_cases hsi : 0 ≤ jsFindIndex (fun (x : SectionData) => x.id == sec) SECTIONS
  · have hli : ¬ 0 ≤ jsFindIndex (fun (l : LinkData) => l.id == lnk)
        (SECTIONS.getD (jsFindIndex (fun (x : SectionData) => x.id == sec) SECTIONS).toNat dsec).links := by
      intro h; exact hbad ⟨hsi, h⟩
    simp only [List.getD, List.get?_eq_getElem?] at hli
    simp [h1, h2, hsi, hli]
  · simp [h1, h2, hsi]

/-- The home-flight branch: with nothing active and a previously active
section, a `flyHome` flight of duration `2` starts from the current pose. -/
lemma flyTrigger_home {env : Env} {s : Sys}
    (h1 : s.activeSection = none) (h2 : s.activeLink = none)
    (h3 : s.prevSection.isSome = true) :
    (flyTrigger env s).anim.active = true ∧
    (flyTrigger env s).anim.phase = Phase.flyHome ∧
    (flyTrigger env s).anim.startPos = s.camPos ∧
    (flyTrigger env s).anim.startLookAt = s.anim.currentLookAt ∧
    (flyTrigger env s).anim.progress = 0 ∧
    (flyTrigger env s).anim.duration = 2 ∧
    (flyTrigger env s).flightLog = s.flightLog ++ [Phase.flyHome] := by
  unfold flyTrigger
  simp [h1, h2, h3]

/-! ## Frame decomposition and projections -/

/-- The state as committed by one `animate` call, before the effect flush. -/
def frameMid (env : Env) (s : Sys) (time delta : ℚ) : Sys :=
  let s2 := dampStep (autoRotateStep s delta)
  let cr := cameraStep env s2 time delta
  { sceneUpdate env cr.1 time with cameraPhase := cr.2.1, cameraProgress := cr.2.2 }

lemma frame_eq_flush (env : Env) (s : Sys) (t d : ℚ) :
    frame env s t d = flushEffects env s (frameMid env s t d) := rfl

lemma autoRotateStep_app (s : Sys) (d : ℚ) :
    (autoRotateStep s d).activeSection = s.activeSection ∧
    (autoRotateStep s d).activeLink = s.activeLink ∧
    (autoRotateStep s d).pendingLink = s.pendingLink ∧
    (autoRotateStep s d).anim = s.anim ∧
    (autoRotateStep s d).flightLog = s.flightLog ∧
    (autoRotateStep s d).targetZoom = s.targetZoom ∧
    (autoRotateStep s d).pinchStart = s.pinchStart ∧
    (autoRotateStep s d).clicksProcessed = s.clicksProcessed := by
  unfold autoRotateStep
  split_ifs <;> simp

lemma dampStep_app (s : Sys) :
    (dampStep s).activeSection = s.activeSection ∧
    (dampStep s).activeLink = s.activeLink ∧
    (dampStep s).pendingLink = s.pendingLink ∧
    (dampStep s).anim = s.anim ∧
    (dampStep s).flightLog = s.flightLog ∧
    (dampStep s).targetZoom = s.targetZoom ∧
    (dampStep s).pinchStart = s.pinchStart ∧
    (dampStep s).clicksProcessed = s.clicksProcessed :=
  ⟨rfl, rfl, rfl, rfl, rfl, rfl, rfl, rfl⟩

lemma sceneUpdate_app (env : Env) (s : Sys) (t : ℚ) :
    (sceneUpdate env s t).activeSection = s.activeSection ∧
    (sceneUpdate env s t).activeLink = s.activeLink ∧
    (sceneUpdate env s t).pendingLink = s.pendingLink ∧
    (sceneUpdate env s t).anim = s.anim ∧
    (sceneUpdate env s t).flightLog = s.flightLog ∧
    (sceneUpdate env s t).targetZoom = s.targetZoom ∧
    (sceneUpdate env s t).pinchStart = s.pinchStart ∧
    (sceneUpdate env s t).clicksProcessed = s.clicksProcessed :=
  ⟨rfl, rfl, rfl, rfl, rfl, rfl, rfl, rfl⟩

lemma cameraStep_app (env : Env) (s : Sys) (t d : ℚ) :
    (cameraStep env s t d).1.activeSection = s.activeSection ∧
    (cameraStep env s t d).1.activeLink = s.activeLink ∧
    (cameraStep env s t d).1.pendingLink = s.pendingLink ∧
    (cameraStep env s t d).1.flightLog = s.flightLog ∧
    (cameraStep env s t d).1.targetZoom = s.targetZoom ∧
    (cameraStep env s t d).1.pinchStart = s.pinchStart ∧
    (cameraStep env s t d).1.clicksProcessed = s.clicksProcessed := by
  unfold cameraStep
  split_ifs <;> simp <;> split_ifs <;> simp

/-- During an active flight the frame advances the progress, deactivates the
record when it clamps at `1`, keeps the phase, and reports the stored phase
with the clamped progress. -/
lemma cameraStep_active {env : Env} {s : Sys} {t d : ℚ} (h : s.anim.active = true) :
    (cameraStep env s t d).2.1 = s.anim.phase ∧
    (cameraStep env s t d).2.2 =
      (if 1 ≤ s.anim.progress + d / s.anim.duration then 1
       else s.anim.progress + d / s.anim.duration) ∧
    (cameraStep env s t d).1.anim.active =
      (if 1 ≤ s.anim.progress + d / s.anim.duration then false else true) ∧
    (cameraStep env s t d).1.anim.phase = s.anim.phase := by
  unfold cameraStep
  simp [h]

lemma cameraStep_home {env : Env} {s : Sys} {t d : ℚ}
    (h : s.anim.active = false) (h2 : s.activeSection = none) :
    (cameraStep env s t d).2.1 = Phase.home ∧
    (cameraStep env s t d).1.anim = s.anim := by
  unfold cameraStep
  simp [h, h2]

lemma cameraStep_parkedAtParent {env : Env} {s : Sys} {t d : ℚ}
    (h : s.anim.active = false) (h2 : s.activeSection ≠ none)
    (h3 : s.activeLink = none) :
    (cameraStep env s t d).2.1 = Phase.parkedAtParent ∧
    (cameraStep env s t d).1.anim = s.anim := by
  unfold cameraStep
  simp only [h, h2, h3]
  split_ifs <;> simp_all

lemma cameraStep_parkedAtSub {env : Env} {s : Sys} {t d : ℚ}
    (h : s.anim.active = false) (h2 : s.activeSection ≠ none)
    (h3 : s.activeLink ≠ none) :
    (cameraStep env s t d).2.1 = Phase.parkedAtSub ∧
    (cameraStep env s t d).1.anim = s.anim := by
  unfold cameraStep
  simp only [h, h2, h3]
  split_ifs <;> simp_all

lemma frameMid_app (env : Env) (s : Sys) (t d : ℚ) :
    (frameMid env s t d).activeSection = s.activeSection ∧
    (frameMid env s t d).activeLink = s.activeLink ∧
    (frameMid env s t d).pendingLink = s.pendingLink ∧
    (frameMid env s t d).targetZoom = s.targetZoom ∧
    (frameMid env s t d).pinchStart = s.pinchStart ∧
    (frameMid env s t d).clicksProcessed = s.clicksProcessed := by
  have h1 := autoRotateStep_app s d
  have h2 := dampStep_app (autoRotateStep s d)
  have h3 := cameraStep_app env (dampStep (autoRotateStep s d)) t d
  have h4 := sceneUpdate_app env (cameraStep env (dampStep (autoRotateStep s d)) t d).1 t
  unfold frameMid
  refine ⟨?_, ?_, ?_, ?_, ?_, ?_⟩ <;> simp_all

/-- The camera phase committed by a frame is the phase the camera branch
reported (through `onCameraProgress`). -/
lemma frameMid_cameraPhase (env : Env) (s : Sys) (t d : ℚ) :
    (frameMid env s t d).cameraPhase =
      (cameraStep env (dampStep (autoRotateStep s d)) t d).2.1 := rfl

lemma frameMid_anim (env : Env) (s : Sys) (t d : ℚ) :
    (frameMid env s t d).anim =
      (cameraStep env (dampStep (autoRotateStep s d)) t d).1.anim := by
  have h4 := sceneUpdate_app env (cameraStep env (dampStep (autoRotateStep s d)) t d).1 t
  unfold frameMid
  simp_all

/-- If the commit changed neither effect dependency list and the stored
camera phase is not `parkedAtParent`, the whole effect cascade is the
identity. -/
lemma flushEffects_no_consume {env : Env} {p c : Sys}
    (hsec : c.activeSection = p.activeSection) (hlink : c.activeLink = p.activeLink)
    (hph : c.cameraPhase ≠ Phase.parkedAtParent) :
    flushEffects env p c = c := by
  have hcp : consumePending c = c := consumePending_of_phase_ne hph
  unfold flushEffects flushOnce
  simp [hsec, hlink, hcp]

/-- If the commit changed neither fly-trigger dependency but did change the
camera phase to `parkedAtParent` while a link is queued under an active
section, the cascade consumes the queue and (the promoted link differing from
the previously active one) re-runs the fly trigger on the promoted state. -/
lemma flushEffects_promote {env : Env} {p c : Sys} {l : String}
    (hsec : c.activeSection = p.activeSection) (hlink : c.activeLink = p.activeLink)
    (hpend : c.pendingLink = some l) (hph : c.cameraPhase = Phase.parkedAtParent)
    (hphch : c.cameraPhase ≠ p.cameraPhase) (hsome : c.activeSection.isSome = true)
    (hnl : c.activeLink ≠ some l) :
    flushEffects env p c =
      flyTrigger env { c with pendingLink := none, activeLink := some l } := by
  have hcp : consumePending c = { c with pendingLink := none, activeLink := some l } := by
    unfold consumePending
    simp [hpend, hsome, hph]
  have hnl2 : ¬ some l = p.activeLink := fun hh => hnl (by rw [hlink, ← hh])
  unfold flushEffects flushOnce
  simp [hsec, hlink, hphch, hcp, hnl, hnl2]

/-- A frame whose camera report is not `parkedAtParent` leaves the whole
navigation state (active section/link, pending queue) unchanged. -/
lemma frame_no_consume {env : Env} {s : Sys} {t d : ℚ}
    (hrep : (cameraStep env (dampStep (autoRotateStep s d)) t d).2.1 ≠ Phase.parkedAtParent) :
    frame env s t d = frameMid env s t d ∧
    (frame env s t d).activeSection = s.activeSection ∧
    (frame env s t d).activeLink = s.activeLink ∧
    (frame env s t d).pendingLink = s.pendingLink ∧
    (frame env s t d).cameraPhase = (cameraStep env (dampStep (autoRotateStep s d)) t d).2.1 := by
  have happ := frameMid_app env s t d
  have heq : frame env s t d = frameMid env s t d := by
    rw [frame_eq_flush]
    exact flushEffects_no_consume happ.1 happ.2.1
      (by rw [frameMid_cameraPhase]; exact hrep)
  refine ⟨heq, ?_, ?_, ?_, ?_⟩ <;>
    rw [heq] <;> simp [happ.1, happ.2.1, happ.2.2.1, frameMid_cameraPhase]

/-- A frame whose camera report is `parkedAtParent`, taken from a state whose
stored phase was not yet `parkedAtParent` and which has a queued link under
an active section and no active link, promotes the queued link. -/
lemma frame_promote {env : Env} {s : Sys} {t d : ℚ} {lnk : String}
    (hpend : s.pendingLink = some lnk) (hlink : s.activeLink = none)
    (hsome : s.activeSection.isSome = true) (hph : s.cameraPhase ≠ Phase.parkedAtParent)
    (hrep : (cameraStep env (dampStep (autoRotateStep s d)) t d).2.1 = Phase.parkedAtParent) :
    (frame env s t d).activeLink = some lnk ∧
    (frame env s t d).pendingLink = none ∧
    (frame env s t d).activeSection = s.activeSection := by
  have happ := frameMid_app env s t d
  have hmidph : (frameMid env s t d).cameraPhase = Phase.parkedAtParent := by
    rw [frameMid_cameraPhase]; exact hrep
  have heq : frame env s t d =
      flyTrigger env { frameMid env s t d with pendingLink := none, activeLink := some lnk } := by
    rw [frame_eq_flush]
    exact flushEffects_promote happ.1 happ.2.1 (by rw [happ.2.2.1]; exact hpend)
      hmidph (by rw [hmidph]; exact fun hh => hph hh.symm)
      (by rw [happ.1]; exact hsome) (by rw [happ.2.1, hlink]; simp)
  have hf := flyTrigger_app env
    { frameMid env s t d with pendingLink := none, activeLink := some lnk }
  rw [heq]
  exact ⟨by rw [hf.2.1], by rw [hf.2.2.1], by rw [hf.1]; exact happ.1⟩

/-! ## Handler-level lemmas -/

lemma handleClickSection_noop {env : Env} {s : Sys} {id : String}
    (h : s.activeSection = some id ∧ s.activeLink = none) :
    handleClickSection env s id = s := by
  unfold handleClickSection
  rw [if_pos h]

lemma handleClickSection_go {env : Env} {s : Sys} {id : String}
    (h : ¬(s.activeSection = some id ∧ s.activeLink = none)) :
    (handleClickSection env s id).activeSection = some id ∧
    (handleClickSection env s id).activeLink = none ∧
    (handleClickSection env s id).pendingLink = none := by
  unfold handleClickSection
  rw [if_neg h]
  exact flushEffects_pending_none rfl

lemma handleBack_nav (env : Env) (s : Sys) :
    (handleBack env s).activeSection = none ∧
    (handleBack env s).activeLink = none ∧
    (handleBack env s).pendingLink = none := by
  unfold handleBack
  exact flushEffects_pending_none rfl

lemma handleBackToSection_nav (env : Env) (s : Sys) :
    (handleBackToSection env s).activeSection = s.activeSection ∧
    (handleBackToSection env s).activeLink = none ∧
    (handleBackToSection env s).pendingLink = none := by
  unfold handleBackToSection
  exact flushEffects_pending_none rfl

/-! ## Pending-owner invariant machinery -/

lemma pendingOwner_of_eq {a b : Sys} (h1 : b.pendingLink = a.pendingLink)
    (h2 : b.activeSection = a.activeSection) (h : pendingOwner a) : pendingOwner b := by
  intro l hl
  rw [h1] at hl
  obtain ⟨x, hx, hsec, hmem⟩ := h l hl
  exact ⟨x, hx, by rw [h2]; exact hsec, hmem⟩

lemma pendingOwner_of_none {s : Sys} (h : s.pendingLink = none) : pendingOwner s := by
  intro l hl
  rw [h] at hl
  cases hl

lemma pendingOwner_flyTrigger {env : Env} {s : Sys} (h : pendingOwner s) :
    pendingOwner (flyTrigger env s) :=
  pendingOwner_of_eq (flyTrigger_app env s).2.2.1 (flyTrigger_app env s).1 h

lemma pendingOwner_consumePending {s : Sys} (h : pendingOwner s) :
    pendingOwner (consumePending s) := by
  rcases consumePending_cases s with he | ⟨l, _, _, _, he⟩
  · rw [he]; exact h
  · rw [he]; exact pendingOwner_of_none rfl

lemma pendingOwner_flushOnce {env : Env} {p c : Sys} (h : pendingOwner c) :
    pendingOwner (flushOnce env p c) := by
  unfold flushOnce
  split_ifs
  · exact pendingOwner_consumePending (pendingOwner_flyTrigger h)
  · exact pendingOwner_flyTrigger h
  · exact pendingOwner_consumePending h
  · exact h

lemma pendingOwner_flushEffects {env : Env} {p c : Sys} (h : pendingOwner c) :
    pendingOwner (flushEffects env p c) :=
  pendingOwner_flushOnce (pendingOwner_flushOnce h)

lemma pendingOwner_handleClickSection {env : Env} {s : Sys} {id : String}
    (h : pendingOwner s) : pendingOwner (handleClickSection env s id) := by
  unfold handleClickSection
  split_ifs
  · exact h
  · exact pendingOwner_flushEffects (pendingOwner_of_none rfl)

lemma pendingOwner_handleBack {env : Env} {s : Sys} :
    pendingOwner (handleBack env s) :=
  pendingOwner_flushEffects (pendingOwner_of_none rfl)

lemma pendingOwner_handleBackToSection {env : Env} {s : Sys} :
    pendingOwner (handleBackToSection env s) :=
  pendingOwner_flushEffects (pendingOwner_of_none rfl)

lemma pendingOwner_handleClickSubSphere {env : Env} {s : Sys} {sec lnk : String}
    (hw : ∃ x ∈ SECTIONS, x.id = sec ∧ lnk ∈ x.links.map LinkData.id)
    (h : pendingOwner s) : pendingOwner (handleClickSubSphere env s sec lnk) := by
  obtain ⟨x, hx, hid, hmem⟩ := hw
  unfold handleClickSubSphere
  split_ifs with hne hph
  · apply pendingOwner_flushEffects
    intro l hl
    simp only at hl
    cases hl
    exact ⟨x, hx, by simp [hid], hmem⟩
  · have hsec : s.activeSection = some sec := not_not.mp hne
    intro l hl
    simp only at hl
    cases hl
    exact ⟨x, hx, by simp only [hsec, hid], hmem⟩
  · apply pendingOwner_flushEffects
    exact pendingOwner_of_eq rfl rfl h

lemma pendingOwner_handleClickAt {env : Env} {s : Sys} {hit : Option Hit}
    (h : pendingOwner s) : pendingOwner (handleClickAt env s hit) := by
  unfold handleClickAt
  split_ifs with h1
  · exact h
  · have h' : pendingOwner { s with clicksProcessed := s.clicksProcessed + 1 } :=
      pendingOwner_of_eq rfl rfl h
    match hit with
    | none => exact h'
    | some (Hit.parent i) =>
        simp only
        split_ifs
        · cases hg : SECTIONS.get? i
          · simp only [hg]; exact h'
          · simp only [hg]; exact pendingOwner_handleClickSection h'
        · exact h'
    | some (Hit.sub si li) =>
        simp only
        split_ifs
        · cases hg : SECTIONS.get? si with
          | none => simp only [hg]; exact h'
          | some sec =>
              simp only [hg]
              cases hg2 : sec.links.get? li with
              | none => simp only [hg2]; exact h'
              | some l =>
                  simp only [hg2]
                  refine pendingOwner_handleClickSubSphere ?_ h'
                  refine ⟨sec, List.get?_mem hg, rfl, ?_⟩
                  exact List.mem_map_of_mem LinkData.id (List.get?_mem hg2)
        · cases hg : SECTIONS.get? si with
          | none => simp only [hg]; exact h'
          | some sec =>
              simp only [hg]
              cases hg2 : sec.links.get? li with
              | none => simp only [hg2]; exact h'
              | some l => simp only [hg2]; exact h'
        · exact h'

lemma pendingOwner_frame {env : Env} {s : Sys} {t d : ℚ} (h : pendingOwner s) :
    pendingOwner (frame env s t d) := by
  rw [frame_eq_flush]
  apply pendingOwner_flushEffects
  have happ := frameMid_app env s t d
  exact pendingOwner_of_eq happ.2.2.1 happ.1 h

/-! ## Zoom-field bookkeeping -/

lemma handleClickSection_targetZoom (env : Env) (s : Sys) (id : String) :
    (handleClickSection env s id).targetZoom = s.targetZoom := by
  unfold handleClickSection
  split_ifs
  · rfl
  · exact (flushEffects_app env s _).2.2.1

lemma handleBack_targetZoom (env : Env) (s : Sys) :
    (handleBack env s).targetZoom = s.targetZoom :=
  (flushEffects_app env s _).2.2.1

lemma handleBackToSection_targetZoom (env : Env) (s : Sys) :
    (handleBackToSection env s).targetZoom = s.targetZoom :=
  (flushEffects_app env s _).2.2.1

lemma handleClickSubSphere_targetZoom (env : Env) (s : Sys) (sec lnk : String) :
    (handleClickSubSphere env s sec lnk).targetZoom = s.targetZoom := by
  unfold handleClickSubSphere
  split_ifs
  · exact (flushEffects_app env s _).2.2.1
  · rfl
  · exact (flushEffects_app env s _).2.2.1

lemma handleClickAt_targetZoom (env : Env) (s : Sys) (hit : Option Hit) :
    (handleClickAt env s hit).targetZoom = s.targetZoom := by
  unfold handleClickAt
  split_ifs
  · rfl
  · match hit with
    | none => rfl
    | some (Hit.parent i) =>
        simp only
        split_ifs
        · cases hg : SECTIONS.get? i with
          | none => simp only [hg]
          | some sec => simp only [hg]; exact handleClickSection_targetZoom env _ _
        · rfl
    | some (Hit.sub si li) =>
        simp only
        split_ifs
        · cases hg : SECTIONS.get? si with
          | none => simp only [hg]
          | some sec =>
              simp only [hg]
              cases hg2 : sec.links.get? li with
              | none => simp only [hg2]
              | some l => simp only [hg2]; exact handleClickSubSphere_targetZoom env _ _ _
        · cases hg : SECTIONS.get? si with
          | none => simp only [hg]
          | some sec =>
              simp only [hg]
              cases hg2 : sec.links.get? li with
              | none => simp only [hg2]
              | some l => simp only [hg2]
        · rfl

lemma frame_targetZoom (env : Env) (s : Sys) (t d : ℚ) :
    (frame env s t d).targetZoom = s.targetZoom := by
  rw [frame_eq_flush, (flushEffects_app env s _).2.2.1]
  exact (frameMid_app env s t d).2.2.2.1

/-- Every event either leaves the zoom target unchanged or writes a value of
the clamped form `max 2 (min 8 v)`. -/
lemma step_targetZoom (env : Env) (s : Sys) (e : Event) :
    (step env s e).targetZoom = s.targetZoom ∨
    ∃ v, (step env s e).targetZoom = max 2 (min 8 v) := by
  cases e with
  | clickSection id => exact Or.inl (handleClickSection_targetZoom env s id)
  | clickSubSphere sec lnk => exact Or.inl (handleClickSubSphere_targetZoom env s sec lnk)
  | back => exact Or.inl (handleBack_targetZoom env s)
  | backToSection => exact Or.inl (handleBackToSection_targetZoom env s)
  | toggleConstellation => exact Or.inl rfl
  | frameTick t d => exact Or.inl (frame_targetZoom env s t d)
  | mouseDown x y => unfold step onMD; split_ifs <;> exact Or.inl rfl
  | mouseMove x y => unfold step onMM; split_ifs <;> exact Or.inl rfl
  | mouseUp hit =>
      refine Or.inl ?_
      unfold step onMU
      split_ifs
      · exact handleClickAt_targetZoom env s hit
      · rfl
  | wheel dy =>
      unfold step onWH
      split_ifs
      · exact Or.inl rfl
      · exact Or.inr ⟨s.targetZoom + dy * (3/1000), rfl⟩
  | touchStart1 x y => unfold step onTS1; split_ifs <;> exact Or.inl rfl
  | touchStart2 d => unfold step onTS2; split_ifs <;> exact Or.inl rfl
  | touchMove1 x y => unfold step onTM1; split_ifs <;> exact Or.inl rfl
  | touchMove2 d =>
      unfold step onTM2
      cases hp : s.pinchStart with
      | none => exact Or.inl rfl
      | some p =>
          simp only
          split_ifs
          · exact Or.inr ⟨s.targetZoom + (p - d) * (1/100), rfl⟩
          · exact Or.inl rfl
  | touchEnd hit =>
      refine Or.inl ?_
      unfold step onTE
      split_ifs
      · exact handleClickAt_targetZoom env s hit
      · rfl

/-- The owner invariant is preserved by every well-formed event. -/
lemma pendingOwner_step {env : Env} {s : Sys} {e : Event}
    (hw : wfEvent e) (h : pendingOwner s) : pendingOwner (step env s e) := by
  cases e with
  | clickSection id => exact pendingOwner_handleClickSection h
  | clickSubSphere sec lnk => exact pendingOwner_handleClickSubSphere hw h
  | back => exact pendingOwner_handleBack
  | backToSection => exact pendingOwner_handleBackToSection
  | toggleConstellation => exact pendingOwner_of_eq rfl rfl h
  | frameTick t d => exact pendingOwner_frame h
  | mouseDown x y =>
      unfold step onMD; split_ifs <;> exact pendingOwner_of_eq rfl rfl h
  | mouseMove x y =>
      unfold step onMM; split_ifs <;> exact pendingOwner_of_eq rfl rfl h
  | mouseUp hit =>
      unfold step onMU
      split_ifs
      · exact pendingOwner_of_eq rfl rfl (pendingOwner_handleClickAt h)
      · exact pendingOwner_of_eq rfl rfl h
  | wheel dy =>
      unfold step onWH; split_ifs <;> exact pendingOwner_of_eq rfl rfl h
  | touchStart1 x y =>
      unfold step onTS1; split_ifs <;> exact pendingOwner_of_eq rfl rfl h
  | touchStart2 d =>
      unfold step onTS2; split_ifs <;> exact pendingOwner_of_eq rfl rfl h
  | touchMove1 x y =>
      unfold step onTM1; split_ifs <;> exact pendingOwner_of_eq rfl rfl h
  | touchMove2 d =>
      unfold step onTM2
      cases hp : s.pinchStart with
      | none => exact h
      | some p =>
          simp only
          split_ifs <;> exact pendingOwner_of_eq rfl rfl h
  | touchEnd hit =>
      unfold step onTE
      split_ifs
      · exact pendingOwner_of_eq rfl rfl (pendingOwner_handleClickAt h)
      · exact pendingOwner_of_eq rfl rfl h

/-! ## Moon-click branch lemmas -/

/-- A moon click for a section that is not currently active, issued while the
stored camera phase is not `parkedAtParent`: the commit queues the link and
activates the section, and the only effect that fires is the fly trigger
(the consumption effect runs but its phase guard fails). -/
lemma handleClickSubSphere_newSection {env : Env} {s : Sys} {sec lnk : String}
    (hne : s.activeSection ≠ some sec) (hph : s.cameraPhase ≠ Phase.parkedAtParent) :
    handleClickSubSphere env s sec lnk =
      flyTrigger env
        { s with pendingLink := some lnk, activeLink := none, activeSection := some sec } := by
  have hd : ¬ ((some sec : Option String) = s.activeSection) := fun hh => hne hh.symm
  have hf := flyTrigger_app env
    { s with pendingLink := some lnk, activeLink := none, activeSection := some sec }
  have hcp := @consumePending_of_phase_ne
    (flyTrigger env { s with
      pendingLink := some lnk, activeLink := none, activeSection := some sec })
    (by rw [hf.2.2.2.1]; exact hph)
  unfold handleClickSubSphere flushEffects flushOnce
  rw [if_pos hne]
  simp [hd, hcp, hf.1, hf.2.1, hf.2.2.2.1]

/-- A moon click for the already-active section while the parent flight is
still in progress: only the `pendingLinkRef` ref is written. -/
lemma handleClickSubSphere_queue {env : Env} {s : Sys} {sec lnk : String}
    (h1 : s.activeSection = some sec) (h2 : s.cameraPhase = Phase.flyToParent) :
    handleClickSubSphere env s sec lnk = { s with pendingLink := some lnk } := by
  unfold handleClickSubSphere
  rw [if_neg (by simp [h1]), if_pos h2]

/-- A moon click for the already-active section when not mid-parent-flight:
the link is activated directly; the effect cascade only runs the fly
trigger. -/
lemma handleClickSubSphere_direct {env : Env} {s : Sys} {sec lnk : String}
    (h1 : s.activeSection = some sec) (h2 : s.cameraPhase ≠ Phase.flyToParent) :
    (handleClickSubSphere env s sec lnk).activeSection = s.activeSection ∧
    (handleClickSubSphere env s sec lnk).activeLink = some lnk ∧
    (handleClickSubSphere env s sec lnk).pendingLink = s.pendingLink := by
  unfold handleClickSubSphere
  rw [if_neg (by simp [h1]), if_neg h2]
  exact flushEffects_phase_sec_eq rfl rfl


/-! ## Arithmetic of the JavaScript remainder wrap (claim C6) -/

lemma jsMod_one_nonneg {p : ℚ} (h : 0 ≤ p) : jsMod p 1 = Int.fract p := by
  unfold jsMod ratTrunc
  rw [div_one, if_pos h, one_mul, Int.self_sub_floor]

lemma jsMod_one_neg {p : ℚ} (h : ¬ 0 ≤ p) : jsMod p 1 = -Int.fract (-p) := by
  unfold jsMod ratTrunc
  rw [div_one, if_neg h, ← Int.self_sub_floor]
  push_cast
  ring

/-- The double wrap `((p % 1) + 1) % 1` of the source computes exactly the
mathematical fractional part. -/
lemma wrapProgress_eq_fract (p : ℚ) : wrapProgress p = Int.fract p := by
  unfold wrapProgress
  by_cases h : 0 ≤ p
  · rw [jsMod_one_nonneg h]
    have h1 : (0:ℚ) ≤ Int.fract p := Int.fract_nonneg p
    have h2 : Int.fract p < 1 := Int.fract_lt_one p
    rw [jsMod_one_nonneg (by linarith)]
    rw [show Int.fract p + 1 = Int.fract p + ((1:ℤ):ℚ) by push_cast; ring]
    rw [Int.fract_add_int, Int.fract_eq_self.mpr ⟨h1, h2⟩]
  · rw [jsMod_one_neg h]
    by_cases hz : Int.fract p = 0
    · have hz2 : Int.fract (-p) = 0 := Int.fract_neg_eq_zero.mpr hz
      rw [hz2, hz]
      norm_num
      rw [jsMod_one_nonneg (by norm_num)]
      simp [Int.fract_one]
    · have hne : Int.fract (-p) = 1 - Int.fract p := Int.fract_neg hz
      rw [hne]
      have h1 : (0:ℚ) ≤ Int.fract p := Int.fract_nonneg p
      have h2 : Int.fract p < 1 := Int.fract_lt_one p
      have h1' : (0:ℚ) < Int.fract p := lt_of_le_of_ne h1 (Ne.symm hz)
      rw [show -(1 - Int.fract p) + 1 = Int.fract p by ring]
      rw [jsMod_one_nonneg (le_of_lt h1')]
      exact Int.fract_eq_self.mpr ⟨h1, h2⟩

/-- Wrapping absorbs a prior JavaScript `% 1`. -/
lemma fract_jsMod_one (p : ℚ) : Int.fract (jsMod p 1) = Int.fract p := by
  by_cases h : 0 ≤ p
  · rw [jsMod_one_nonneg h, Int.fract_fract]
  · rw [jsMod_one_neg h]
    by_cases hz : Int.fract p = 0
    · rw [Int.fract_neg_eq_zero.mpr hz, hz]
      norm_num
    · rw [Int.fract_neg hz]
      rw [show -(1 - Int.fract p) = Int.fract p + ((-1:ℤ):ℚ) by push_cast; ring]
      rw [Int.fract_add_int, Int.fract_fract]

/-- C6: for every progress value `p` (negative values included), the
orbit-curve lookup satisfies `positionAt(p % 1) = positionAt(p)` (with the
JavaScript remainder), the lookup wraps its argument into `[0,1)` before
evaluating the curve, and the returned position is periodic with period 1
(also stated with the mathematical `p mod 1`, the fractional part). -/
theorem claim6_orbit_curve_periodicity (curve : ℚ → Vec3) (p : ℚ) :
    getTorusPosition curve (jsMod p 1) = getTorusPosition curve p ∧
    getTorusPosition curve (Int.fract p) = getTorusPosition curve p ∧
    getTorusPosition curve (p + 1) = getTorusPosition curve p ∧
    0 ≤ wrapProgress p ∧ wrapProgress p < 1 := by
  refine ⟨?_, ?_, ?_, ?_, ?_⟩
  · unfold getTorusPosition
    rw [wrapProgress_eq_fract, wrapProgress_eq_fract, fract_jsMod_one]
  · unfold getTorusPosition
    rw [wrapProgress_eq_fract, wrapProgress_eq_fract, Int.fract_fract]
  · unfold getTorusPosition
    rw [wrapProgress_eq_fract, wrapProgress_eq_fract,
      show p + 1 = p + ((1:ℤ):ℚ) by push_cast; ring, Int.fract_add_int]
  · rw [wrapProgress_eq_fract]; exact Int.fract_nonneg p
  · rw [wrapProgress_eq_fract]; exact Int.fract_lt_one p

/-- C5: entering a section twice in a row with no intervening back action is
idempotent: the first request leaves the state at `AtSection(id)` (section
active, no link), and the second request is a complete no-op — the state is
unchanged, so in particular the ghost flight log shows no second flight. -/
theorem claim5_enter_section_idempotent (env : Env) (s : Sys) (id : String) :
    (step env (step env s (Event.clickSection id)) (Event.clickSection id) =
      step env s (Event.clickSection id)) ∧
    (step env s (Event.clickSection id)).activeSection = some id ∧
    (step env s (Event.clickSection id)).activeLink = none ∧
    (step env (step env s (Event.clickSection id)) (Event.clickSection id)).flightLog =
      (step env s (Event.clickSection id)).flightLog := by
  have hfields : (step env s (Event.clickSection id)).activeSection = some id ∧
      (step env s (Event.clickSection id)).activeLink = none := by
    simp only [step]
    by_cases h : s.activeSection = some id ∧ s.activeLink = none
    · rw [handleClickSection_noop h]
      exact ⟨h.1, h.2⟩
    · have hgo := @handleClickSection_go env s id h
      exact ⟨hgo.1, hgo.2.1⟩
  have hsame : step env (step env s (Event.clickSection id)) (Event.clickSection id) =
      step env s (Event.clickSection id) := by
    simp only [step]
    exact handleClickSection_noop hfields
  exact ⟨hsame, hfields.1, hfields.2, by rw [hsame]⟩

/-- C10: the operations that navigate away from a queued link's context —
back to home (`handleBack`), back to section (`handleBackToSection`), and a
planet/section click for a section other than the current one
(`handleClickSection`; every planet click and nav-tab click that navigates
away satisfies that, since the canvas only accepts planet clicks with no
active section and the nav bar maps a click on the active section's tab to a
back action instead) — leave the pending-link queue empty, so a previously
queued link can never be consumed afterwards. -/
theorem claim10_navigation_clears_pending (env : Env) (s : Sys) (id : String)
    (h : s.activeSection ≠ some id) :
    (step env s Event.back).pendingLink = none ∧
    (step env s Event.backToSection).pendingLink = none ∧
    (step env s (Event.clickSection id)).pendingLink = none := by
  refine ⟨?_, ?_, ?_⟩
  · simp only [step]
    exact (handleBack_nav env s).2.2
  · simp only [step]
    exact (handleBackToSection_nav env s).2.2
  · simp only [step]
    exact (handleClickSection_go (fun hc => h hc.1)).2.2

/-- A concrete state with a link queued for the active section "dev". -/
def sQueued : Sys :=
  { initSys with pendingLink := some "github", activeSection := some "dev" }

/-- Witness for C10 at a concrete state with a queued link. -/
theorem claim10_witness :
    sQueued.activeSection ≠ some "art" ∧
    ((step env0 sQueued Event.back).pendingLink = none ∧
     (step env0 sQueued Event.backToSection).pendingLink = none ∧
     (step env0 sQueued (Event.clickSection "art")).pendingLink = none) :=
  ⟨by decide, claim10_navigation_clears_pending env0 sQueued "art" (by decide)⟩

/-- C9: every camera flight is created with its spec-assigned duration:
`flyToParent` lasts 1.5s when the previous committed state had an active
link (`prevLinkRef` set, i.e. returning from link level) and 2.5s otherwise;
`flyToSub` (started when its section/link indices resolve) lasts 1.8s; and
`flyHome` lasts 2.0s. -/
theorem claim9_flight_durations (env : Env) (s : Sys) :
    (∀ sec : String, s.activeSection = some sec → s.activeLink = none →
      (flyTrigger env s).anim.phase = Phase.flyToParent ∧
      (flyTrigger env s).anim.duration = (if s.prevLink.isSome then 3/2 else 5/2)) ∧
    (∀ sec lnk : String, s.activeSection = some sec → s.activeLink = some lnk →
      0 ≤ jsFindIndex (fun (x : SectionData) => x.id == sec) SECTIONS →
      0 ≤ jsFindIndex (fun (l : LinkData) => l.id == lnk)
        (SECTIONS.getD (jsFindIndex (fun (x : SectionData) => x.id == sec) SECTIONS).toNat dsec).links →
      (flyTrigger env s).anim.phase = Phase.flyToSub ∧
      (flyTrigger env s).anim.duration = 9/5) ∧
    (s.activeSection = none → s.activeLink = none → s.prevSection.isSome = true →
      (flyTrigger env s).anim.phase = Phase.flyHome ∧
      (flyTrigger env s).anim.duration = 2) := by
  refine ⟨?_, ?_, ?_⟩
  · intro sec h1 h2
    have h := @flyTrigger_parent env s sec h1 h2
    exact ⟨h.2.1, h.2.2.2.2.2.1⟩
  · intro sec lnk h1 h2 hsi hli
    have h := @flyTrigger_sub env s sec lnk h1 h2 hsi hli
    exact ⟨h.2.1, h.2.2.2.2.2.1⟩
  · intro h1 h2 h3
    have h := @flyTrigger_home env s h1 h2 h3
    exact ⟨h.2.1, h.2.2.2.2.2.1⟩

/-- Fresh descent from home towards "dev". -/
def sParFresh : Sys := { initSys with activeSection := some "dev" }

/-- Return to section "dev" from a link-level view. -/
def sParReturn : Sys :=
  { initSys with activeSection := some "dev", prevLink := some "github" }

/-- Link level active for "dev"/"github". -/
def sSubState : Sys :=
  { initSys with activeSection := some "dev", activeLink := some "github" }

/-- Back at home after section "dev". -/
def sHomeState : Sys := { initSys with prevSection := some "dev" }

/-- Witness for C9: the four flight kinds at concrete states get durations
2.5, 1.5, 1.8 and 2.0 respectively. -/
theorem claim9_witness :
    (flyTrigger env0 sParFresh).anim.duration = 5/2 ∧
    (flyTrigger env0 sParReturn).anim.duration = 3/2 ∧
    (flyTrigger env0 sSubState).anim.duration = 9/5 ∧
    (flyTrigger env0 sHomeState).anim.duration = 2 :=
  ⟨((claim9_flight_durations env0 sParFresh).1 "dev" rfl rfl).2.trans
     (by with_unfolding_all decide),
   ((claim9_flight_durations env0 sParReturn).1 "dev" rfl rfl).2.trans
     (by with_unfolding_all decide),
   ((claim9_flight_durations env0 sSubState).2.1 "dev" "github" rfl rfl
     (by with_unfolding_all decide) (by with_unfolding_all decide)).2,
   ((claim9_flight_durations env0 sHomeState).2.2 rfl rfl rfl).2⟩

lemma easeInOutCubic_zero : easeInOutCubic 0 = 0 := by
  unfold easeInOutCubic
  norm_num

lemma lerpV_zero (a b : Vec3) : lerpV a b 0 = a := by
  unfold lerpV
  cases a
  simp

/-- C3: whenever the trigger effect starts a new flight while another flight
is in progress, the new flight's recorded start position is exactly the
camera's current position at the instant of interruption, and its recorded
start look-at is exactly the current (mid-flight) look-at; consequently the
interpolated camera position at the recorded zero progress equals the
interruption-time camera position for any endpoint, so the camera does not
jump.  (In this exact-rational model "within floating-point tolerance"
becomes exact equality.) -/
theorem claim3_interruption_continuity (env : Env) (s : Sys)
    (_hactive : s.anim.active = true)
    (hnew : (flyTrigger env s).flightLog ≠ s.flightLog) :
    (flyTrigger env s).anim.startPos = s.camPos ∧
    (flyTrigger env s).anim.startLookAt = s.anim.currentLookAt ∧
    ∀ ep : Vec3, lerpV (flyTrigger env s).anim.startPos ep (easeInOutCubic 0) = s.camPos := by
  have hmain : (flyTrigger env s).anim.startPos = s.camPos ∧
      (flyTrigger env s).anim.startLookAt = s.anim.currentLookAt := by
    cases hs : s.activeSection with
    | some sec =>
        cases hl : s.activeLink with
        | none =>
            have h := @flyTrigger_parent env s sec hs hl
            exact ⟨h.2.2.1, h.2.2.2.1⟩
        | some lnk =>
            by_cases hv : 0 ≤ jsFindIndex (fun (x : SectionData) => x.id == sec) SECTIONS ∧
                0 ≤ jsFindIndex (fun (l : LinkData) => l.id == lnk)
                  (SECTIONS.getD (jsFindIndex (fun (x : SectionData) => x.id == sec) SECTIONS).toNat dsec).links
            · have h := @flyTrigger_sub env s sec lnk hs hl hv.1 hv.2
              exact ⟨h.2.2.1, h.2.2.2.1⟩
            · exact absurd (@flyTrigger_sub_invalid env s sec lnk hs hl hv).2 hnew
    | none =>
        cases hl : s.activeLink with
        | none =>
            by_cases hp : s.prevSection.isSome = true
            · have h := @flyTrigger_home env s hs hl hp
              exact ⟨h.2.2.1, h.2.2.2.1⟩
            · exfalso
              apply hnew
              unfold flyTrigger
              simp [hs, hl, hp]
        | some lnk =>
            exfalso
            apply hnew
            unfold flyTrigger
            simp [hs, hl]
  exact ⟨hmain.1, hmain.2, fun ep => by rw [easeInOutCubic_zero, lerpV_zero, hmain.1]⟩

/-- A state mid-flight to "art" with the camera somewhere along the way. -/
def sMidFlight : Sys :=
  { initSys with
    activeSection := some "art",
    camPos := ⟨1, 2, 3⟩,
    anim := { initAnim with
      active := true, phase := Phase.flyToParent, progress := 1/2,
      targetSectionIndex := 0, currentLookAt := ⟨4, 5, 6⟩ } }

/-- Witness for C3: interrupting the mid-flight state with a click on "dev"
(trigger fires a new `flyToParent`) records start pose `(1,2,3)` / look-at
`(4,5,6)` — the camera pose at the instant of interruption. -/
theorem claim3_witness :
    (flyTrigger env0 { sMidFlight with activeSection := some "dev" }).anim.startPos = ⟨1, 2, 3⟩ ∧
    (flyTrigger env0 { sMidFlight with activeSection := some "dev" }).anim.startLookAt = ⟨4, 5, 6⟩ :=
  ⟨(claim3_interruption_continuity env0 _ (by decide) (by with_unfolding_all decide)).1,
   (claim3_interruption_continuity env0 _ (by decide) (by with_unfolding_all decide)).2.1⟩

/-- C1: the pending-link queue is the single nullable `pendingLinkRef`, so it
holds at most one entry after any well-formed event; the owner invariant
(whenever a link is queued, the active section is its owning section) is
preserved by every well-formed event; and the only operation that promotes
the queue — the consumption effect — either does nothing or, precisely when
the stored camera phase is `parkedAtParent` with a section active (by the
invariant, the owning section), clears the queue and promotes the link in
one atomic update, so a queued entry is consumed exactly once. -/
theorem claim1_pending_queue (env : Env) (s : Sys) (e : Event)
    (hw : wfEvent e) (hinv : pendingOwner s) :
    (step env s e).pendingLink.toList.length ≤ 1 ∧
    pendingOwner (step env s e) ∧
    (∀ st : Sys, consumePending st = st ∨
      ∃ l, st.pendingLink = some l ∧ st.cameraPhase = Phase.parkedAtParent ∧
        st.activeSection.isSome = true ∧
        consumePending st = { st with pendingLink := none, activeLink := some l }) := by
  refine ⟨?_, pendingOwner_step hw hinv, fun st => consumePending_cases st⟩
  cases hpl : (step env s e).pendingLink <;> simp [hpl]

/-- Witness for C1 at the concrete queued state, driven by a frame event. -/
theorem claim1_witness :
    wfEvent (Event.frameTick 1 1) ∧
    (step env0 sQueued (Event.frameTick 1 1)).pendingLink.toList.length ≤ 1 ∧
    pendingOwner (step env0 sQueued (Event.frameTick 1 1)) := by
  have hq : pendingOwner sQueued := by
    intro l hl
    obtain rfl : "github" = l := Option.some.inj hl
    refine ⟨⟨"dev", 2/10, 12/10000, [⟨"projects"⟩, ⟨"github"⟩, ⟨"resume"⟩]⟩, ?_, rfl, ?_⟩
    · simp [SECTIONS]
    · simp
  have h := claim1_pending_queue env0 sQueued (Event.frameTick 1 1) trivial hq
  exact ⟨trivial, h.1, h.2.1⟩

lemma preFrame_anim (s : Sys) (d : ℚ) :
    (dampStep (autoRotateStep s d)).anim = s.anim := by
  rw [(dampStep_app (autoRotateStep s d)).2.2.2.1, (autoRotateStep_app s d).2.2.2.1]

lemma preFrame_nav (s : Sys) (d : ℚ) :
    (dampStep (autoRotateStep s d)).activeSection = s.activeSection ∧
    (dampStep (autoRotateStep s d)).activeLink = s.activeLink := by
  constructor
  · rw [(dampStep_app (autoRotateStep s d)).1, (autoRotateStep_app s d).1]
  · rw [(dampStep_app (autoRotateStep s d)).2.1, (autoRotateStep_app s d).2.1]

lemma frame_cameraPhase_eq_report (env : Env) (s : Sys) (t d : ℚ) :
    (frame env s t d).cameraPhase =
      (cameraStep env (dampStep (autoRotateStep s d)) t d).2.1 := by
  rw [frame_eq_flush, (flushEffects_app env s (frameMid env s t d)).2.1,
    frameMid_cameraPhase]

/-- During an active flight the frame reports the stored flight phase and
ends with the progress-clamped activity flag. -/
lemma frame_report_active {env : Env} {s : Sys} {t d : ℚ} (h : s.anim.active = true) :
    (cameraStep env (dampStep (autoRotateStep s d)) t d).2.1 = s.anim.phase ∧
    (frameMid env s t d).anim.active =
      (if 1 ≤ s.anim.progress + d / s.anim.duration then false else true) := by
  have hanim := preFrame_anim s d
  have hact : (dampStep (autoRotateStep s d)).anim.active = true := by rw [hanim]; exact h
  have hc := @cameraStep_active env (dampStep (autoRotateStep s d)) t d hact
  constructor
  · rw [hc.1, hanim]
  · rw [frameMid_anim]
    rw [hc.2.2.1, hanim]

/-- With no active flight, a section active and no link active, the frame
reports `parkedAtParent`. -/
lemma frame_report_parked {env : Env} {s : Sys} {t d : ℚ}
    (h : s.anim.active = false) (h2 : s.activeSection ≠ none) (h3 : s.activeLink = none) :
    (cameraStep env (dampStep (autoRotateStep s d)) t d).2.1 = Phase.parkedAtParent := by
  have hanim := preFrame_anim s d
  have hnav := preFrame_nav s d
  have hact : (dampStep (autoRotateStep s d)).anim.active = false := by rw [hanim]; exact h
  exact (@cameraStep_parkedAtParent env (dampStep (autoRotateStep s d)) t d hact
    (by rw [hnav.1]; exact h2) (by rw [hnav.2]; exact h3)).1

/-- The state committed by a moon click whose section is not active
(`handleClickSubSphere`, first branch). -/
def clickMid (s : Sys) (sec lnk : String) : Sys :=
  { s with pendingLink := some lnk, activeLink := none, activeSection := some sec }

/-- C2 (amended): a moon click whose owning section differs from the active
section, issued while the stored camera phase is not `parkedAtParent` (home,
mid-flight, or link level): (a) the click leaves the state at
`AtSection(newSection)` with the link queued pending and a `flyToParent`
flight active; (b) any frame that does not report `parkedAtParent` preserves
that configuration; (c) the first frame that does report `parkedAtParent`
promotes the queued link to the active link in the same cascade; and (d) a
concrete two-frame schedule (one long frame completing the flight, one more
frame) always reaches `AtLink(newSection, link)`.  The stale-phase exception
that forces this amendment is `claim2_counterexample`. -/
theorem claim2_amended (env : Env) (s : Sys) (sec lnk : String)
    (h1 : s.activeSection ≠ some sec) (h2 : s.cameraPhase ≠ Phase.parkedAtParent) :
    ((step env s (Event.clickSubSphere sec lnk)).activeSection = some sec ∧
     (step env s (Event.clickSubSphere sec lnk)).activeLink = none ∧
     (step env s (Event.clickSubSphere sec lnk)).pendingLink = some lnk ∧
     (step env s (Event.clickSubSphere sec lnk)).anim.phase = Phase.flyToParent ∧
     (step env s (Event.clickSubSphere sec lnk)).anim.active = true) ∧
    (∀ (st : Sys) (t d : ℚ), st.pendingLink = some lnk → st.activeLink = none →
      st.activeSection = some sec →
      (frame env st t d).cameraPhase ≠ Phase.parkedAtParent →
      (frame env st t d).pendingLink = some lnk ∧
      (frame env st t d).activeLink = none ∧
      (frame env st t d).activeSection = some sec) ∧
    (∀ (st : Sys) (t d : ℚ), st.pendingLink = some lnk → st.activeLink = none →
      st.activeSection = some sec → st.cameraPhase ≠ Phase.parkedAtParent →
      (frame env st t d).cameraPhase = Phase.parkedAtParent →
      (frame env st t d).activeLink = some lnk ∧
      (frame env st t d).pendingLink = none ∧
      (frame env st t d).activeSection = some sec) ∧
    ((frame env (frame env (step env s (Event.clickSubSphere sec lnk)) 0 3) 1 1).activeLink
        = some lnk ∧
     (frame env (frame env (step env s (Event.clickSubSphere sec lnk)) 0 3) 1 1).pendingLink
        = none) := by
  have hEq : step env s (Event.clickSubSphere sec lnk) = flyTrigger env (clickMid s sec lnk) := by
    simp only [step]
    exact handleClickSubSphere_newSection h1 h2
  have hApp := flyTrigger_app env (clickMid s sec lnk)
  have hPar := @flyTrigger_parent env (clickMid s sec lnk) sec rfl rfl
  have partA : (step env s (Event.clickSubSphere sec lnk)).activeSection = some sec ∧
      (step env s (Event.clickSubSphere sec lnk)).activeLink = none ∧
      (step env s (Event.clickSubSphere sec lnk)).pendingLink = some lnk ∧
      (step env s (Event.clickSubSphere sec lnk)).anim.phase = Phase.flyToParent ∧
      (step env s (Event.clickSubSphere sec lnk)).anim.active = true := by
    rw [hEq]
    exact ⟨hApp.1, hApp.2.1, hApp.2.2.1, hPar.2.1, hPar.1⟩
  have partB : ∀ (st : Sys) (t d : ℚ), st.pendingLink = some lnk → st.activeLink = none →
      st.activeSection = some sec →
      (frame env st t d).cameraPhase ≠ Phase.parkedAtParent →
      (frame env st t d).pendingLink = some lnk ∧
      (frame env st t d).activeLink = none ∧
      (frame env st t d).activeSection = some sec := by
    intro st t d hp hl hs hrep
    have hrep' : (cameraStep env (dampStep (autoRotateStep st d)) t d).2.1 ≠
        Phase.parkedAtParent := by
      rw [← frame_cameraPhase_eq_report]
      exact hrep
    have hfc := @frame_no_consume env st t d hrep'
    exact ⟨hfc.2.2.2.1.trans hp, hfc.2.2.1.trans hl, hfc.2.1.trans hs⟩
  have partC : ∀ (st : Sys) (t d : ℚ), st.pendingLink = some lnk → st.activeLink = none →
      st.activeSection = some sec → st.cameraPhase ≠ Phase.parkedAtParent →
      (frame env st t d).cameraPhase = Phase.parkedAtParent →
      (frame env st t d).activeLink = some lnk ∧
      (frame env st t d).pendingLink = none ∧
      (frame env st t d).activeSection = some sec := by
    intro st t d hp hl hs hph hrep
    have hrep' : (cameraStep env (dampStep (autoRotateStep st d)) t d).2.1 =
        Phase.parkedAtParent := by
      rw [← frame_cameraPhase_eq_report]
      exact hrep
    have hpr := @frame_promote env st t d lnk hp hl (by rw [hs]; rfl) hph hrep'
    exact ⟨hpr.1, hpr.2.1, hpr.2.2.trans hs⟩
  refine ⟨partA, partB, partC, ?_⟩
  -- the two-frame completion
  have hdur : (flyTrigger env (clickMid s sec lnk)).anim.duration = 3/2 ∨
      (flyTrigger env (clickMid s sec lnk)).anim.duration = 5/2 := by
    rw [hPar.2.2.2.2.2.1]
    by_cases hb : (clickMid s sec lnk).prevLink.isSome = true
    · left; rw [if_pos hb]
    · right; rw [if_neg hb]
  have hge : (1:ℚ) ≤ (flyTrigger env (clickMid s sec lnk)).anim.progress +
      3 / (flyTrigger env (clickMid s sec lnk)).anim.duration := by
    rw [hPar.2.2.2.2.1]
    rcases hdur with hd | hd <;> rw [hd] <;> norm_num
  have hra := @frame_report_active env (flyTrigger env (clickMid s sec lnk)) 0 3 hPar.1
  have hrep1ne : (cameraStep env (dampStep (autoRotateStep (flyTrigger env (clickMid s sec lnk)) 3)) 0 3).2.1
      ≠ Phase.parkedAtParent := by
    rw [hra.1, hPar.2.1]
    simp
  have hnc1 := @frame_no_consume env (flyTrigger env (clickMid s sec lnk)) 0 3 hrep1ne
  have hst1P : (frame env (flyTrigger env (clickMid s sec lnk)) 0 3).pendingLink = some lnk :=
    hnc1.2.2.2.1.trans hApp.2.2.1
  have hst1L : (frame env (flyTrigger env (clickMid s sec lnk)) 0 3).activeLink = none :=
    hnc1.2.2.1.trans hApp.2.1
  have hst1S : (frame env (flyTrigger env (clickMid s sec lnk)) 0 3).activeSection = some sec :=
    hnc1.2.1.trans hApp.1
  have hst1C : (frame env (flyTrigger env (clickMid s sec lnk)) 0 3).cameraPhase =
      Phase.flyToParent := by
    rw [hnc1.2.2.2.2, hra.1, hPar.2.1]
  have hst1A : (frame env (flyTrigger env (clickMid s sec lnk)) 0 3).anim.active = false := by
    rw [hnc1.1, hra.2, if_pos hge]
  have hrep2 : (cameraStep env (dampStep (autoRotateStep
      (frame env (flyTrigger env (clickMid s sec lnk)) 0 3) 1)) 1 1).2.1 =
      Phase.parkedAtParent :=
    frame_report_parked hst1A (by rw [hst1S]; simp) hst1L
  have hpr := @frame_promote env (frame env (flyTrigger env (clickMid s sec lnk)) 0 3) 1 1 lnk
    hst1P hst1L (by rw [hst1S]; rfl) (by rw [hst1C]; simp) hrep2
  rw [hEq]
  exact ⟨hpr.1, hpr.2.1⟩

/-- Reachable state: click planet "art" from home, one long frame completing
the 2.5s parent flight, one more frame parking the camera (the last report,
stored in `cameraPhase`, is `parkedAtParent`). -/
def parkedAtArt : Sys :=
  run env0 initSys
    [Event.clickSection "art", Event.frameTick 1 3, Event.frameTick 2 1]

/-- Counterexample to C2 as stated: from the reachable state parked at
section "art" (stored phase `parkedAtParent`), a moon click for the
*different* section "dev" does not leave the state at `AtSection(dev)` with
the link pending — the stale `parkedAtParent` phase satisfies the
consumption effect's guard during the very same effect cascade, so the state
jumps straight to `AtLink(dev, github)` with an active `flyToSub` flight and
an empty queue, with no `parkedAtParent` report for "dev" ever issued. -/
theorem claim2_counterexample :
    parkedAtArt.activeSection = some "art" ∧
    parkedAtArt.cameraPhase = Phase.parkedAtParent ∧
    parkedAtArt.anim.active = false ∧
    (step env0 parkedAtArt (Event.clickSubSphere "dev" "github")).activeLink = some "github" ∧
    (step env0 parkedAtArt (Event.clickSubSphere "dev" "github")).pendingLink = none ∧
    (step env0 parkedAtArt (Event.clickSubSphere "dev" "github")).anim.phase = Phase.flyToSub ∧
    (step env0 parkedAtArt (Event.clickSubSphere "dev" "github")).anim.active = true := by
  with_unfolding_all decide

/-- Witness for the amended C2: a moon click on "yoga"/"classes" from the
initial home state queues the link, and the concrete two-frame schedule
promotes it. -/
theorem claim2_witness :
    initSys.activeSection ≠ some "yoga" ∧
    initSys.cameraPhase ≠ Phase.parkedAtParent ∧
    ((step env0 initSys (Event.clickSubSphere "yoga" "classes")).activeSection = some "yoga" ∧
     (step env0 initSys (Event.clickSubSphere "yoga" "classes")).activeLink = none ∧
     (step env0 initSys (Event.clickSubSphere "yoga" "classes")).pendingLink = some "classes") ∧
    ((frame env0 (frame env0 (step env0 initSys (Event.clickSubSphere "yoga" "classes")) 0 3) 1 1).activeLink = some "classes" ∧
     (frame env0 (frame env0 (step env0 initSys (Event.clickSubSphere "yoga" "classes")) 0 3) 1 1).pendingLink = none) := by
  have h := claim2_amended env0 initSys "yoga" "classes" (by decide) (by decide)
  exact ⟨by decide, by decide, ⟨h.1.1, h.1.2.1, h.1.2.2.1⟩, h.2.2.2⟩

lemma jsFindIndex_sections_neg {id : String} (h : id ∉ SECTIONS.map SectionData.id) :
    jsFindIndex (fun (x : SectionData) => x.id == id) SECTIONS = -1 := by
  unfold jsFindIndex
  rw [List.findIdx?_eq_none_iff.mpr]
  intro x hx
  simp only [beq_eq_false_iff_ne, ne_eq, Bool.not_eq_true]
  intro hEq
  exact absurd (hEq ▸ List.mem_map_of_mem SectionData.id hx) h

lemma jsFindIndex_links_neg {lnk : String} {ls : List LinkData}
    (h : lnk ∉ ls.map LinkData.id) :
    jsFindIndex (fun (l : LinkData) => l.id == lnk) ls = -1 := by
  unfold jsFindIndex
  rw [List.findIdx?_eq_none_iff.mpr]
  intro x hx
  simp only [beq_eq_false_iff_ne, ne_eq, Bool.not_eq_true]
  intro hEq
  exact absurd (hEq ▸ List.mem_map_of_mem LinkData.id hx) h

/-- When the commit changed a fly-trigger dependency and the consumption
effect cannot act on the triggered state, the cascade is exactly one
fly-trigger run. -/
lemma flushEffects_fire_noconsume {env : Env} {p c : Sys}
    (hA : (c.activeSection, c.activeLink) ≠ (p.activeSection, p.activeLink))
    (hcp : consumePending (flyTrigger env c) = flyTrigger env c) :
    flushEffects env p c = flyTrigger env c := by
  have hf := flyTrigger_app env c
  unfold flushEffects flushOnce
  rw [if_pos hA]
  have hr1 : (if (c.cameraPhase, c.activeSection) ≠ (p.cameraPhase, p.activeSection)
      then consumePending (flyTrigger env c) else flyTrigger env c) = flyTrigger env c := by
    split_ifs <;> simp [hcp]
  rw [hr1]
  have hA2 : ¬ (((flyTrigger env c).activeSection, (flyTrigger env c).activeLink) ≠
      (c.activeSection, c.activeLink)) := by
    simp [hf.1, hf.2.1]
  have hB2 : ¬ (((flyTrigger env c).cameraPhase, (flyTrigger env c).activeSection) ≠
      (c.cameraPhase, c.activeSection)) := by
    simp [hf.1, hf.2.2.2.1]
  rw [if_neg hB2, if_neg hA2]

/-- When the commit changed a fly-trigger dependency but neither consumption
dependency, the cascade is exactly one fly-trigger run. -/
lemma flushEffects_fire_sameReport {env : Env} {p c : Sys}
    (hA : (c.activeSection, c.activeLink) ≠ (p.activeSection, p.activeLink))
    (hB : (c.cameraPhase, c.activeSection) = (p.cameraPhase, p.activeSection)) :
    flushEffects env p c = flyTrigger env c := by
  have hf := flyTrigger_app env c
  unfold flushEffects flushOnce
  rw [if_pos hA, if_neg (by simp [hB] : ¬ (c.cameraPhase, c.activeSection) ≠ (p.cameraPhase, p.activeSection))]
  have hA2 : ¬ (((flyTrigger env c).activeSection, (flyTrigger env c).activeLink) ≠
      (c.activeSection, c.activeLink)) := by
    simp [hf.1, hf.2.1]
  have hB2 : ¬ (((flyTrigger env c).cameraPhase, (flyTrigger env c).activeSection) ≠
      (c.cameraPhase, c.activeSection)) := by
    simp [hf.1, hf.2.2.2.1]
  rw [if_neg hB2, if_neg hA2]

/-- A section click that is not the no-op re-click: the commit and its
cascade are exactly one fly-trigger run on the updated state. -/
lemma handleClickSection_go_eq {env : Env} {s : Sys} {id : String}
    (hne : s.activeSection ≠ some id) :
    handleClickSection env s id =
      flyTrigger env
        { s with pendingLink := none, activeLink := none, activeSection := some id } := by
  have hf := flyTrigger_app env
    { s with pendingLink := none, activeLink := none, activeSection := some id }
  unfold handleClickSection
  rw [if_neg (fun hc => hne hc.1)]
  exact flushEffects_fire_noconsume
    (fun hp => hne (congrArg Prod.fst hp).symm)
    (consumePending_of_pending_none (by rw [hf.2.2.1]))

/-- A direct moon activation (same section, not mid-parent-flight) whose link
differs from the currently active one: the cascade is exactly one
fly-trigger run on the updated state. -/
lemma handleClickSubSphere_direct_eq {env : Env} {s : Sys} {sec lnk : String}
    (h1 : s.activeSection = some sec) (h2 : s.cameraPhase ≠ Phase.flyToParent)
    (h3 : s.activeLink ≠ some lnk) :
    handleClickSubSphere env s sec lnk =
      flyTrigger env { s with activeLink := some lnk } := by
  unfold handleClickSubSphere
  rw [if_neg (by simp [h1]), if_neg h2]
  exact flushEffects_fire_sameReport
    (fun hp => h3 (congrArg Prod.snd hp).symm) rfl

/-- Counterexample to C4 as stated: a navigation request with the unknown
section id "nope" is not a no-op — the navigation state transitions to the
unknown id and the fly-to-parent trigger starts a flight (with target index
`-1`). -/
theorem claim4_counterexample :
    (step env0 initSys (Event.clickSection "nope")).activeSection = some "nope" ∧
    (step env0 initSys (Event.clickSection "nope")).anim.active = true ∧
    (step env0 initSys (Event.clickSection "nope")).anim.phase = Phase.flyToParent ∧
    (step env0 initSys (Event.clickSection "nope")).anim.targetSectionIndex = -1 ∧
    (step env0 initSys (Event.clickSection "nope")).flightLog = [Phase.flyToParent] := by
  with_unfolding_all decide

/-- C4 (amended): a navigation request carrying an unknown id never raises a
failure (every handler is total), but it is not a no-op.  (i) A section
request with an unknown id (not the current one) still transitions the state
to that id and still starts a `flyToParent` flight, with target index `-1`
(whose per-frame update then falls back to the generic start/end
interpolation branch).  (ii) A moon request whose link id does not resolve
(unknown link, or unknown section making the index lookup fail) issued at
section level still transitions `activeLink` to the unknown id, but the
fly-to-sub trigger's index guard fails, so no flight starts and the
animation record is untouched. -/
theorem claim4_amended (env : Env) (s : Sys) (id sec lnk : String) :
    (id ∉ SECTIONS.map SectionData.id → s.activeSection ≠ some id →
      (step env s (Event.clickSection id)).activeSection = some id ∧
      (step env s (Event.clickSection id)).anim.active = true ∧
      (step env s (Event.clickSection id)).anim.phase = Phase.flyToParent ∧
      (step env s (Event.clickSection id)).anim.targetSectionIndex = -1 ∧
      (step env s (Event.clickSection id)).flightLog = s.flightLog ++ [Phase.flyToParent]) ∧
    (s.activeSection = some sec → s.cameraPhase ≠ Phase.flyToParent →
      s.activeLink = none →
      lnk ∉ (SECTIONS.getD (jsFindIndex (fun (x : SectionData) => x.id == sec) SECTIONS).toNat dsec).links.map LinkData.id →
      (step env s (Event.clickSubSphere sec lnk)).activeLink = some lnk ∧
      (step env s (Event.clickSubSphere sec lnk)).anim = s.anim ∧
      (step env s (Event.clickSubSphere sec lnk)).flightLog = s.flightLog) := by
  constructor
  · intro hid hne
    have hEq : step env s (Event.clickSection id) =
        flyTrigger env
          { s with pendingLink := none, activeLink := none, activeSection := some id } := by
      simp only [step]
      exact handleClickSection_go_eq hne
    have hPar := @flyTrigger_parent env
      { s with pendingLink := none, activeLink := none, activeSection := some id } id rfl rfl
    have hIdx := jsFindIndex_sections_neg hid
    rw [hEq]
    refine ⟨(flyTrigger_app env _).1, hPar.1, hPar.2.1, ?_, hPar.2.2.2.2.2.2.2⟩
    rw [hPar.2.2.2.2.2.2.1, hIdx]
  · intro hsec hph hlnone hlnk
    have hEq : step env s (Event.clickSubSphere sec lnk) =
        flyTrigger env { s with activeLink := some lnk } := by
      simp only [step]
      exact handleClickSubSphere_direct_eq hsec hph (by rw [hlnone]; simp)
    have hbad : ¬ (0 ≤ jsFindIndex (fun (x : SectionData) => x.id == sec) SECTIONS ∧
        0 ≤ jsFindIndex (fun (l : LinkData) => l.id == lnk)
          (SECTIONS.getD (jsFindIndex (fun (x : SectionData) => x.id == sec) SECTIONS).toNat dsec).links) := by
      intro hc
      rw [jsFindIndex_links_neg hlnk] at hc
      exact absurd hc.2 (by norm_num)
    have hinv := @flyTrigger_sub_invalid env { s with activeLink := some lnk } sec lnk hsec rfl hbad
    rw [hEq]
    exact ⟨(flyTrigger_app env _).2.1, hinv.1, hinv.2⟩

/-- Witness for the amended C4: the unknown section "nope" from home, and
the unknown link "nolink" clicked while parked at "dev". -/
theorem claim4_witness :
    ((step env0 initSys (Event.clickSection "nope")).activeSection = some "nope" ∧
     (step env0 initSys (Event.clickSection "nope")).anim.targetSectionIndex = -1) ∧
    ((step env0 sParFresh (Event.clickSubSphere "dev" "nolink")).activeLink = some "nolink" ∧
     (step env0 sParFresh (Event.clickSubSphere "dev" "nolink")).anim = sParFresh.anim) := by
  have h := claim4_amended env0 initSys "nope" "dev" "nolink"
  have h2 := claim4_amended env0 sParFresh "nope" "dev" "nolink"
  have ha := h.1 (by decide) (by decide)
  have hb := h2.2 rfl (by decide) rfl (by decide)
  exact ⟨⟨ha.1, ha.2.2.2.1⟩, ⟨hb.1, hb.2.1⟩⟩

/-! ## Pointer gesture lemmas (claim C7) -/

lemma run_snoc (env : Env) (s : Sys) (es : List Event) (e : Event) :
    run env s (es ++ [e]) = step env (run env s es) e := by
  unfold run
  rw [List.foldl_append]
  rfl

lemma handleClickSection_clicks (env : Env) (s : Sys) (id : String) :
    (handleClickSection env s id).clicksProcessed = s.clicksProcessed := by
  unfold handleClickSection
  split_ifs
  · rfl
  · exact (flushEffects_app env s _).2.2.2.2

lemma handleClickSubSphere_clicks (env : Env) (s : Sys) (sec lnk : String) :
    (handleClickSubSphere env s sec lnk).clicksProcessed = s.clicksProcessed := by
  unfold handleClickSubSphere
  split_ifs
  · exact (flushEffects_app env s _).2.2.2.2
  · rfl
  · exact (flushEffects_app env s _).2.2.2.2

/-- Past its gate, `handleClick` increments the ghost counter: the release is processed as a click. -/
lemma handleClickAt_clicks {env : Env} {s : Sys} {hit : Option Hit}
    (hnd : s.hasDragged = false) (hact : s.anim.active = false) :
    (handleClickAt env s hit).clicksProcessed = s.clicksProcessed + 1 := by
  unfold handleClickAt
  rw [if_neg (by simp [hnd, hact])]
  match hit with
  | none => rfl
  | some (Hit.parent i) =>
      simp only
      split_ifs
      · cases hg : SECTIONS.get? i with
        | none => simp only [hg]
        | some sec => simp only [hg]; exact handleClickSection_clicks env _ _
      · rfl
  | some (Hit.sub si li) =>
      simp only
      split_ifs
      · cases hg : SECTIONS.get? si with
        | none => simp only [hg]
        | some sec =>
            simp only [hg]
            cases hg2 : sec.links.get? li with
            | none => simp only [hg2]
            | some l => simp only [hg2]; exact handleClickSubSphere_clicks env _ _ _
      · cases hg : SECTIONS.get? si with
        | none => simp only [hg]
        | some sec =>
            simp only [hg]
            cases hg2 : sec.links.get? li with
            | none => simp only [hg2]
            | some l => simp only [hg2]
      · rfl

lemma onMD_go {s : Sys} {x y : ℚ} (hact : s.anim.active = false) :
    (onMD s x y).isDragging = true ∧ (onMD s x y).hasDragged = false ∧
    (onMD s x y).mouseDownPos = (x, y) ∧ (onMD s x y).anim = s.anim ∧
    (onMD s x y).clicksProcessed = s.clicksProcessed := by
  unfold onMD
  rw [if_neg (by simp [hact])]
  exact ⟨rfl, rfl, rfl, rfl, rfl⟩

lemma onMM_fields (s : Sys) (x y : ℚ) :
    (onMM s x y).isDragging = s.isDragging ∧
    (onMM s x y).mouseDownPos = s.mouseDownPos ∧
    (onMM s x y).anim = s.anim ∧
    (onMM s x y).clicksProcessed = s.clicksProcessed := by
  unfold onMM
  split_ifs <;> exact ⟨rfl, rfl, rfl, rfl⟩

lemma onMM_small {s : Sys} {x y : ℚ} (hdrag : s.isDragging = true)
    (h1 : ¬ 5 < |x - s.mouseDownPos.1|) (h2 : ¬ 5 < |y - s.mouseDownPos.2|) :
    (onMM s x y).hasDragged = s.hasDragged := by
  unfold onMM
  rw [if_neg (by simp [hdrag])]
  simp only
  rw [if_neg (by push_neg; exact ⟨not_lt.mp h1, not_lt.mp h2⟩)]

lemma onMM_big {s : Sys} {x y : ℚ} (hdrag : s.isDragging = true)
    (hb : 5 < |x - s.mouseDownPos.1| ∨ 5 < |y - s.mouseDownPos.2|) :
    (onMM s x y).hasDragged = true := by
  unfold onMM
  rw [if_neg (by simp [hdrag])]
  simp only
  rw [if_pos hb]

lemma onMM_sticky {s : Sys} {x y : ℚ} (hd : s.hasDragged = true) :
    (onMM s x y).hasDragged = true := by
  unfold onMM
  split_ifs <;> first | rfl | exact hd

lemma onTM1_fields (s : Sys) (x y : ℚ) :
    (onTM1 s x y).isDragging = s.isDragging ∧
    (onTM1 s x y).mouseDownPos = s.mouseDownPos ∧
    (onTM1 s x y).anim = s.anim ∧
    (onTM1 s x y).clicksProcessed = s.clicksProcessed := by
  unfold onTM1
  split_ifs <;> exact ⟨rfl, rfl, rfl, rfl⟩

lemma onTM1_small {s : Sys} {x y : ℚ} (hdrag : s.isDragging = true)
    (h1 : ¬ 8 < |x - s.mouseDownPos.1|) (h2 : ¬ 8 < |y - s.mouseDownPos.2|) :
    (onTM1 s x y).hasDragged = s.hasDragged := by
  unfold onTM1
  rw [if_neg (by simp [hdrag])]
  simp only
  rw [if_neg (by push_neg; exact ⟨not_lt.mp h1, not_lt.mp h2⟩)]

lemma onTM1_big {s : Sys} {x y : ℚ} (hdrag : s.isDragging = true)
    (hb : 8 < |x - s.mouseDownPos.1| ∨ 8 < |y - s.mouseDownPos.2|) :
    (onTM1 s x y).hasDragged = true := by
  unfold onTM1
  rw [if_neg (by simp [hdrag])]
  simp only
  rw [if_pos hb]

lemma onTM1_sticky {s : Sys} {x y : ℚ} (hd : s.hasDragged = true) :
    (onTM1 s x y).hasDragged = true := by
  unfold onTM1
  split_ifs <;> first | rfl | exact hd

lemma onTS1_go {s : Sys} {x y : ℚ} (hact : s.anim.active = false) :
    (onTS1 s x y).isDragging = true ∧ (onTS1 s x y).hasDragged = false ∧
    (onTS1 s x y).mouseDownPos = (x, y) ∧ (onTS1 s x y).anim = s.anim ∧
    (onTS1 s x y).clicksProcessed = s.clicksProcessed := by
  unfold onTS1
  rw [if_neg (by simp [hact])]
  exact ⟨rfl, rfl, rfl, rfl, rfl⟩

/-- Invariant carried over a run of small mouse moves: still pressed, still
not marked as a drag, origin and animation state unchanged, no click
processed. -/
lemma runMoves_small_mouse (env : Env) (x0 y0 : ℚ) :
    ∀ (moves : List (ℚ × ℚ)) (s : Sys),
      s.isDragging = true → s.hasDragged = false → s.mouseDownPos = (x0, y0) →
      s.anim.active = false →
      (∀ p ∈ moves, |p.1 - x0| ≤ 5 ∧ |p.2 - y0| ≤ 5) →
      (run env s (moves.map (fun p => Event.mouseMove p.1 p.2))).isDragging = true ∧
      (run env s (moves.map (fun p => Event.mouseMove p.1 p.2))).hasDragged = false ∧
      (run env s (moves.map (fun p => Event.mouseMove p.1 p.2))).mouseDownPos = (x0, y0) ∧
      (run env s (moves.map (fun p => Event.mouseMove p.1 p.2))).anim.active = false ∧
      (run env s (moves.map (fun p => Event.mouseMove p.1 p.2))).clicksProcessed = s.clicksProcessed := by
  intro moves
  induction moves with
  | nil => intro s h1 h2 h3 h4 _; exact ⟨h1, h2, h3, h4, rfl⟩
  | cons p ps ih =>
      intro s h1 h2 h3 h4 hall
      have hstep : step env s (Event.mouseMove p.1 p.2) = onMM s p.1 p.2 := rfl
      have hf := onMM_fields s p.1 p.2
      have hsm : (onMM s p.1 p.2).hasDragged = s.hasDragged := by
        refine onMM_small h1 ?_ ?_ <;> rw [h3]
        · exact not_lt.mpr (hall p (by simp)).1
        · exact not_lt.mpr (hall p (by simp)).2
      have hrest := ih (onMM s p.1 p.2)
        (hf.1.trans h1) (hsm.trans h2) (hf.2.1.trans h3)
        (by rw [hf.2.2.1]; exact h4)
        (fun q hq => hall q (List.mem_cons_of_mem p hq))
      simpa only [List.map_cons, run, List.foldl_cons, hstep] using
        ⟨hrest.1, hrest.2.1, hrest.2.2.1, hrest.2.2.2.1,
          hrest.2.2.2.2.trans hf.2.2.2⟩

/-- Once marked as a drag, a run of mouse moves keeps the mark and the
bookkeeping fields. -/
lemma runMoves_sticky_mouse (env : Env) :
    ∀ (moves : List (ℚ × ℚ)) (s : Sys),
      s.hasDragged = true → s.anim.active = false →
      (run env s (moves.map (fun p => Event.mouseMove p.1 p.2))).hasDragged = true ∧
      (run env s (moves.map (fun p => Event.mouseMove p.1 p.2))).anim.active = false ∧
      (run env s (moves.map (fun p => Event.mouseMove p.1 p.2))).clicksProcessed = s.clicksProcessed := by
  intro moves
  induction moves with
  | nil => intro s h1 h2; exact ⟨h1, h2, rfl⟩
  | cons p ps ih =>
      intro s h1 h2
      have hstep : step env s (Event.mouseMove p.1 p.2) = onMM s p.1 p.2 := rfl
      have hf := onMM_fields s p.1 p.2
      have hrest := ih (onMM s p.1 p.2) (onMM_sticky h1) (by rw [hf.2.2.1]; exact h2)
      simpa only [List.map_cons, run, List.foldl_cons, hstep] using
        ⟨hrest.1, hrest.2.1, hrest.2.2.trans hf.2.2.2⟩

lemma runMoves_small_touch (env : Env) (x0 y0 : ℚ) :
    ∀ (moves : List (ℚ × ℚ)) (s : Sys),
      s.isDragging = true → s.hasDragged = false → s.mouseDownPos = (x0, y0) →
      s.anim.active = false →
      (∀ p ∈ moves, |p.1 - x0| ≤ 8 ∧ |p.2 - y0| ≤ 8) →
      (run env s (moves.map (fun p => Event.touchMove1 p.1 p.2))).isDragging = true ∧
      (run env s (moves.map (fun p => Event.touchMove1 p.1 p.2))).hasDragged = false ∧
      (run env s (moves.map (fun p => Event.touchMove1 p.1 p.2))).mouseDownPos = (x0, y0) ∧
      (run env s (moves.map (fun p => Event.touchMove1 p.1 p.2))).anim.active = false ∧
      (run env s (moves.map (fun p => Event.touchMove1 p.1 p.2))).clicksProcessed = s.clicksProcessed := by
  intro moves
  induction moves with
  | nil => intro s h1 h2 h3 h4 _; exact ⟨h1, h2, h3, h4, rfl⟩
  | cons p ps ih =>
      intro s h1 h2 h3 h4 hall
      have hstep : step env s (Event.touchMove1 p.1 p.2) = onTM1 s p.1 p.2 := rfl
      have hf := onTM1_fields s p.1 p.2
      have hsm : (onTM1 s p.1 p.2).hasDragged = s.hasDragged := by
        refine onTM1_small h1 ?_ ?_ <;> rw [h3]
        · exact not_lt.mpr (hall p (by simp)).1
        · exact not_lt.mpr (hall p (by simp)).2
      have hrest := ih (onTM1 s p.1 p.2)
        (hf.1.trans h1) (hsm.trans h2) (hf.2.1.trans h3)
        (by rw [hf.2.2.1]; exact h4)
        (fun q hq => hall q (List.mem_cons_of_mem p hq))
      simpa only [List.map_cons, run, List.foldl_cons, hstep] using
        ⟨hrest.1, hrest.2.1, hrest.2.2.1, hrest.2.2.2.1,
          hrest.2.2.2.2.trans hf.2.2.2⟩

lemma runMoves_sticky_touch (env : Env) :
    ∀ (moves : List (ℚ × ℚ)) (s : Sys),
      s.hasDragged = true → s.anim.active = false →
      (run env s (moves.map (fun p => Event.touchMove1 p.1 p.2))).hasDragged = true ∧
      (run env s (moves.map (fun p => Event.touchMove1 p.1 p.2))).anim.active = false ∧
      (run env s (moves.map (fun p => Event.touchMove1 p.1 p.2))).clicksProcessed = s.clicksProcessed := by
  intro moves
  induction moves with
  | nil => intro s h1 h2; exact ⟨h1, h2, rfl⟩
  | cons p ps ih =>
      intro s h1 h2
      have hstep : step env s (Event.touchMove1 p.1 p.2) = onTM1 s p.1 p.2 := rfl
      have hf := onTM1_fields s p.1 p.2
      have hrest := ih (onTM1 s p.1 p.2) (onTM1_sticky h1) (by rw [hf.2.2.1]; exact h2)
      simpa only [List.map_cons, run, List.foldl_cons, hstep] using
        ⟨hrest.1, hrest.2.1, hrest.2.2.trans hf.2.2.2⟩

lemma onMU_click {env : Env} {s : Sys} {hit : Option Hit}
    (hnd : s.hasDragged = false) (hact : s.anim.active = false) :
    (onMU env s hit).clicksProcessed = s.clicksProcessed + 1 := by
  unfold onMU
  rw [if_pos hnd]
  exact handleClickAt_clicks hnd hact

lemma onMU_drag {env : Env} {s : Sys} {hit : Option Hit}
    (hd : s.hasDragged = true) :
    (onMU env s hit).clicksProcessed = s.clicksProcessed := by
  unfold onMU
  rw [if_neg (by simp [hd])]

lemma onTE_click {env : Env} {s : Sys} {hit : Option Hit}
    (hnd : s.hasDragged = false) (hact : s.anim.active = false) :
    (onTE env s hit).clicksProcessed = s.clicksProcessed + 1 := by
  unfold onTE
  rw [if_pos hnd]
  exact handleClickAt_clicks hnd hact

lemma onTE_drag {env : Env} {s : Sys} {hit : Option Hit}
    (hd : s.hasDragged = true) :
    (onTE env s hit).clicksProcessed = s.clicksProcessed := by
  unfold onTE
  rw [if_neg (by simp [hd])]

lemma run_cons (env : Env) (s : Sys) (e : Event) (es : List Event) :
    run env s (e :: es) = run env (step env s e) es := rfl

/-- If the gesture is already marked, or some move in the list exceeds the
5px per-axis threshold from the down origin, the run ends marked as a
drag. -/
lemma runMoves_mark_mouse (env : Env) (x0 y0 : ℚ) :
    ∀ (moves : List (ℚ × ℚ)) (s : Sys),
      s.isDragging = true → s.mouseDownPos = (x0, y0) → s.anim.active = false →
      (s.hasDragged = true ∨ ∃ p ∈ moves, 5 < |p.1 - x0| ∨ 5 < |p.2 - y0|) →
      (run env s (moves.map (fun p => Event.mouseMove p.1 p.2))).hasDragged = true ∧
      (run env s (moves.map (fun p => Event.mouseMove p.1 p.2))).anim.active = false ∧
      (run env s (moves.map (fun p => Event.mouseMove p.1 p.2))).clicksProcessed = s.clicksProcessed := by
  intro moves
  induction moves with
  | nil =>
      intro s h1 h2 h3 hd
      rcases hd with hd | ⟨q, hq, _⟩
      · exact ⟨hd, h3, rfl⟩
      · cases hq
  | cons p ps ih =>
      intro s h1 h2 h3 hd
      have hstep : step env s (Event.mouseMove p.1 p.2) = onMM s p.1 p.2 := rfl
      have hf := onMM_fields s p.1 p.2
      have hnext : ∀ hcond : (onMM s p.1 p.2).hasDragged = true ∨
          ∃ q ∈ ps, 5 < |q.1 - x0| ∨ 5 < |q.2 - y0|,
          (run env (onMM s p.1 p.2) (ps.map (fun q => Event.mouseMove q.1 q.2))).hasDragged = true ∧
          (run env (onMM s p.1 p.2) (ps.map (fun q => Event.mouseMove q.1 q.2))).anim.active = false ∧
          (run env (onMM s p.1 p.2) (ps.map (fun q => Event.mouseMove q.1 q.2))).clicksProcessed =
            (onMM s p.1 p.2).clicksProcessed :=
        fun hcond => ih (onMM s p.1 p.2) (hf.1.trans h1) (hf.2.1.trans h2)
          (by rw [hf.2.2.1]; exact h3) hcond
      rcases hd with hd | ⟨q, hq, hbig⟩
      · have h := hnext (Or.inl (onMM_sticky hd))
        simpa only [List.map_cons, run_cons, hstep] using
          ⟨h.1, h.2.1, h.2.2.trans hf.2.2.2⟩
      · rcases List.mem_cons.mp hq with rfl | hq'
        · have hmark : (onMM s q.1 q.2).hasDragged = true :=
            onMM_big h1 (by rw [h2]; exact hbig)
          have h := hnext (Or.inl hmark)
          simpa only [List.map_cons, run_cons, hstep] using
            ⟨h.1, h.2.1, h.2.2.trans hf.2.2.2⟩
        · have h := hnext (Or.inr ⟨q, hq', hbig⟩)
          simpa only [List.map_cons, run_cons, hstep] using
            ⟨h.1, h.2.1, h.2.2.trans hf.2.2.2⟩

/-- Touch analogue of `runMoves_mark_mouse` with the 8px threshold. -/
lemma runMoves_mark_touch (env : Env) (x0 y0 : ℚ) :
    ∀ (moves : List (ℚ × ℚ)) (s : Sys),
      s.isDragging = true → s.mouseDownPos = (x0, y0) → s.anim.active = false →
      (s.hasDragged = true ∨ ∃ p ∈ moves, 8 < |p.1 - x0| ∨ 8 < |p.2 - y0|) →
      (run env s (moves.map (fun p => Event.touchMove1 p.1 p.2))).hasDragged = true ∧
      (run env s (moves.map (fun p => Event.touchMove1 p.1 p.2))).anim.active = false ∧
      (run env s (moves.map (fun p => Event.touchMove1 p.1 p.2))).clicksProcessed = s.clicksProcessed := by
  intro moves
  induction moves with
  | nil =>
      intro s h1 h2 h3 hd
      rcases hd with hd | ⟨q, hq, _⟩
      · exact ⟨hd, h3, rfl⟩
      · cases hq
  | cons p ps ih =>
      intro s h1 h2 h3 hd
      have hstep : step env s (Event.touchMove1 p.1 p.2) = onTM1 s p.1 p.2 := rfl
      have hf := onTM1_fields s p.1 p.2
      have hnext : ∀ hcond : (onTM1 s p.1 p.2).hasDragged = true ∨
          ∃ q ∈ ps, 8 < |q.1 - x0| ∨ 8 < |q.2 - y0|,
          (run env (onTM1 s p.1 p.2) (ps.map (fun q => Event.touchMove1 q.1 q.2))).hasDragged = true ∧
          (run env (onTM1 s p.1 p.2) (ps.map (fun q => Event.touchMove1 q.1 q.2))).anim.active = false ∧
          (run env (onTM1 s p.1 p.2) (ps.map (fun q => Event.touchMove1 q.1 q.2))).clicksProcessed =
            (onTM1 s p.1 p.2).clicksProcessed :=
        fun hcond => ih (onTM1 s p.1 p.2) (hf.1.trans h1) (hf.2.1.trans h2)
          (by rw [hf.2.2.1]; exact h3) hcond
      rcases hd with hd | ⟨q, hq, hbig⟩
      · have h := hnext (Or.inl (onTM1_sticky hd))
        simpa only [List.map_cons, run_cons, hstep] using
          ⟨h.1, h.2.1, h.2.2.trans hf.2.2.2⟩
      · rcases List.mem_cons.mp hq with rfl | hq'
        · have hmark : (onTM1 s q.1 q.2).hasDragged = true :=
            onTM1_big h1 (by rw [h2]; exact hbig)
          have h := hnext (Or.inl hmark)
          simpa only [List.map_cons, run_cons, hstep] using
            ⟨h.1, h.2.1, h.2.2.trans hf.2.2.2⟩
        · have h := hnext (Or.inr ⟨q, hq', hbig⟩)
          simpa only [List.map_cons, run_cons, hstep] using
            ⟨h.1, h.2.1, h.2.2.trans hf.2.2.2⟩

/-- C7: drag vs. click disambiguation.  For a pointer-down/up pair with an
idle camera: if every intervening move stays within the per-axis threshold
(5px mouse, 8px touch) of the down origin, the release passes the gate of
`handleClick` — it registers as a click (the ghost click counter advances);
if any intervening move exceeds the threshold on either axis, the gesture is
marked as a drag and the release is suppressed (the counter does not
advance).  The source compares each axis separately, so the threshold is the
Chebyshev (per-axis) displacement. -/
theorem claim7_drag_click_disambiguation (env : Env) (s : Sys) (x0 y0 : ℚ)
    (moves : List (ℚ × ℚ)) (hit : Option Hit) (hact : s.anim.active = false) :
    ((∀ p ∈ moves, |p.1 - x0| ≤ 5 ∧ |p.2 - y0| ≤ 5) →
      (run env s (Event.mouseDown x0 y0 ::
          (moves.map (fun p => Event.mouseMove p.1 p.2) ++ [Event.mouseUp hit]))).clicksProcessed
        = s.clicksProcessed + 1) ∧
    ((∃ p ∈ moves, 5 < |p.1 - x0| ∨ 5 < |p.2 - y0|) →
      (run env (step env s (Event.mouseDown x0 y0))
          (moves.map (fun p => Event.mouseMove p.1 p.2))).hasDragged = true ∧
      (run env s (Event.mouseDown x0 y0 ::
          (moves.map (fun p => Event.mouseMove p.1 p.2) ++ [Event.mouseUp hit]))).clicksProcessed
        = s.clicksProcessed) ∧
    ((∀ p ∈ moves, |p.1 - x0| ≤ 8 ∧ |p.2 - y0| ≤ 8) →
      (run env s (Event.touchStart1 x0 y0 ::
          (moves.map (fun p => Event.touchMove1 p.1 p.2) ++ [Event.touchEnd hit]))).clicksProcessed
        = s.clicksProcessed + 1) ∧
    ((∃ p ∈ moves, 8 < |p.1 - x0| ∨ 8 < |p.2 - y0|) →
      (run env (step env s (Event.touchStart1 x0 y0))
          (moves.map (fun p => Event.touchMove1 p.1 p.2))).hasDragged = true ∧
      (run env s (Event.touchStart1 x0 y0 ::
          (moves.map (fun p => Event.touchMove1 p.1 p.2) ++ [Event.touchEnd hit]))).clicksProcessed
        = s.clicksProcessed) := by
  have hdM := @onMD_go s x0 y0 hact
  have hdT := @onTS1_go s x0 y0 hact
  have hstepM : step env s (Event.mouseDown x0 y0) = onMD s x0 y0 := rfl
  have hstepT : step env s (Event.touchStart1 x0 y0) = onTS1 s x0 y0 := rfl
  refine ⟨?_, ?_, ?_, ?_⟩
  · intro hall
    rw [run_cons, run_snoc, hstepM]
    have hsm := runMoves_small_mouse env x0 y0 moves (onMD s x0 y0)
      hdM.1 hdM.2.1 hdM.2.2.1 (by rw [hdM.2.2.2.1]; exact hact) hall
    have hup : step env (run env (onMD s x0 y0)
        (moves.map (fun p => Event.mouseMove p.1 p.2))) (Event.mouseUp hit) =
        onMU env (run env (onMD s x0 y0)
          (moves.map (fun p => Event.mouseMove p.1 p.2))) hit := rfl
    rw [hup, onMU_click hsm.2.1 hsm.2.2.2.1, hsm.2.2.2.2, hdM.2.2.2.2]
  · intro hex
    have hmk := runMoves_mark_mouse env x0 y0 moves (onMD s x0 y0)
      hdM.1 hdM.2.2.1 (by rw [hdM.2.2.2.1]; exact hact) (Or.inr hex)
    constructor
    · rw [hstepM]; exact hmk.1
    · rw [run_cons, run_snoc, hstepM]
      have hup : step env (run env (onMD s x0 y0)
          (moves.map (fun p => Event.mouseMove p.1 p.2))) (Event.mouseUp hit) =
          onMU env (run env (onMD s x0 y0)
            (moves.map (fun p => Event.mouseMove p.1 p.2))) hit := rfl
      rw [hup, onMU_drag hmk.1, hmk.2.2, hdM.2.2.2.2]
  · intro hall
    rw [run_cons, run_snoc, hstepT]
    have hsm := runMoves_small_touch env x0 y0 moves (onTS1 s x0 y0)
      hdT.1 hdT.2.1 hdT.2.2.1 (by rw [hdT.2.2.2.1]; exact hact) hall
    have hup : step env (run env (onTS1 s x0 y0)
        (moves.map (fun p => Event.touchMove1 p.1 p.2))) (Event.touchEnd hit) =
        onTE env (run env (onTS1 s x0 y0)
          (moves.map (fun p => Event.touchMove1 p.1 p.2))) hit := rfl
    rw [hup, onTE_click hsm.2.1 hsm.2.2.2.1, hsm.2.2.2.2, hdT.2.2.2.2]
  · intro hex
    have hmk := runMoves_mark_touch env x0 y0 moves (onTS1 s x0 y0)
      hdT.1 hdT.2.2.1 (by rw [hdT.2.2.2.1]; exact hact) (Or.inr hex)
    constructor
    · rw [hstepT]; exact hmk.1
    · rw [run_cons, run_snoc, hstepT]
      have hup : step env (run env (onTS1 s x0 y0)
          (moves.map (fun p => Event.touchMove1 p.1 p.2))) (Event.touchEnd hit) =
          onTE env (run env (onTS1 s x0 y0)
            (moves.map (fun p => Event.touchMove1 p.1 p.2))) hit := rfl
      rw [hup, onTE_drag hmk.1, hmk.2.2, hdT.2.2.2.2]

/-- Witness for C7: a 3px/4px wiggle still clicks; a 9px horizontal pull
becomes a drag and suppresses the click. -/
theorem claim7_witness :
    (run env0 initSys (Event.mouseDown 0 0 ::
        ([((3:ℚ), (4:ℚ))].map (fun p => Event.mouseMove p.1 p.2) ++
          [Event.mouseUp none]))).clicksProcessed = initSys.clicksProcessed + 1 ∧
    (run env0 initSys (Event.mouseDown 0 0 ::
        ([((9:ℚ), (0:ℚ))].map (fun p => Event.mouseMove p.1 p.2) ++
          [Event.mouseUp none]))).clicksProcessed = initSys.clicksProcessed :=
  ⟨(claim7_drag_click_disambiguation env0 initSys 0 0 [(3, 4)] none rfl).1
     (by intro p hp; simp at hp; subst hp; norm_num),
   ((claim7_drag_click_disambiguation env0 initSys 0 0 [(9, 0)] none rfl).2.1
     ⟨(9, 0), by simp, by norm_num⟩).2⟩

/-- C8 (amended): the zoom target radius is clamped into `[2, 8]` by every
event (every write goes through `Math.max(2, Math.min(8, v))`, and it starts
at 4.5); wheel input is ignored while a camera animation is active or a
section is active; a *pinch baseline* cannot be recorded while an animation
is active, and pinch-move zoom is ignored while a section is active — but
pinch-move zoom is not gated on an active animation (see the
counterexample). -/
theorem claim8_zoom_clamp (env : Env) (s : Sys) (e : Event) (dy d : ℚ) :
    zoomInv initSys ∧
    (zoomInv s → zoomInv (step env s e)) ∧
    (s.anim.active = true ∨ s.activeSection.isSome = true →
      (step env s (Event.wheel dy)).targetZoom = s.targetZoom) ∧
    (s.activeSection.isSome = true →
      (step env s (Event.touchMove2 d)).targetZoom = s.targetZoom) ∧
    (s.anim.active = true →
      (step env s (Event.touchStart2 d)).pinchStart = s.pinchStart) := by
  refine ⟨⟨by norm_num [initSys], by norm_num [initSys]⟩, ?_, ?_, ?_, ?_⟩
  · intro hinv
    unfold zoomInv at hinv ⊢
    rcases step_targetZoom env s e with h | ⟨v, h⟩
    · rw [h]; exact hinv
    · rw [h]
      exact ⟨le_max_left 2 (min 8 v), max_le (by norm_num) (min_le_left 8 v)⟩
  · intro hcond
    show (onWH s dy).targetZoom = s.targetZoom
    unfold onWH
    rw [if_pos (by rcases hcond with h | h
                   · exact Or.inl h
                   · exact Or.inr h)]
  · intro hcond
    show (onTM2 s d).targetZoom = s.targetZoom
    unfold onTM2
    cases hp : s.pinchStart with
    | none => rfl
    | some p =>
        simp only
        rw [if_neg (by simp [Option.isSome_iff_exists] at hcond
                       obtain ⟨a, ha⟩ := hcond
                       simp [ha])]
  · intro hcond
    show (onTS2 s d).pinchStart = s.pinchStart
    unfold onTS2
    rw [if_pos hcond]

/-- Reachable state refuting the animation gating of pinch zoom: parked at
"art" with a two-finger pinch baseline recorded (allowed: no animation is
active while parked), then "back" starts a `flyHome` animation without
clearing the baseline. -/
def pinchDuringFlyHome : Sys :=
  run env0 initSys
    [Event.clickSection "art", Event.frameTick 1 3, Event.frameTick 2 1,
     Event.touchStart2 100, Event.back]

/-- Counterexample to C8 as stated: with the `flyHome` animation active and
no section active, a pinch move still adjusts the zoom target (from 4.5 to
5), so "zoom input is ignored whenever a camera animation is active" is
false for pinch input.  (The `[2,8]` clamp itself does hold; see the
amended theorem.) -/
theorem claim8_counterexample :
    pinchDuringFlyHome.anim.active = true ∧
    pinchDuringFlyHome.activeSection = none ∧
    pinchDuringFlyHome.pinchStart = some 100 ∧
    pinchDuringFlyHome.targetZoom = 9/2 ∧
    (step env0 pinchDuringFlyHome (Event.touchMove2 50)).targetZoom = 5 := by
  with_unfolding_all decide

/-- Witness for the amended C8: the clamp invariant survives a large wheel
event at home, and wheel input is ignored at section level. -/
theorem claim8_witness :
    zoomInv initSys ∧
    zoomInv (step env0 initSys (Event.wheel 100000)) ∧
    (step env0 sParFresh (Event.wheel 3)).targetZoom = sParFresh.targetZoom := by
  have h1 := claim8_zoom_clamp env0 initSys (Event.wheel 100000) 100000 0
  have h2 := claim8_zoom_clamp env0 sParFresh (Event.wheel 3) 3 0
  exact ⟨h1.1, h1.2.1 h1.1, h2.2.2.1 (Or.inr (by decide))⟩
